import Mathlib

/-!
Verification development for the cobroker dashboard repository.

The repository keeps two in-memory collections (task listings and property
listings) behind a simulated API (`src/services/apiSimulation.ts` and
`src/services/propertyApiSimulation.ts`), exposes them through zustand
stores (`listingStore.ts`, `propertyStore.ts`) with client-side filtering
and sorting, and has a mock auth service (`authService.ts`).

This file gives a shallow embedding of those modules and proves or refutes
the frozen claims about them.  Strings stay strings, JS numbers used as
integers become `Int`, `Partial<T>` payloads become records of `Option`
fields, thrown exceptions become `Except String`, and the mutable
database object becomes explicit state passing.
-/

namespace Cobroker

/-! ### Models of the JavaScript primitives used by the code

`parseInt(s, 10)` skips leading whitespace, reads an optional sign and
then the longest prefix of decimal digits; it is NaN (here `none`) when
that prefix is empty.  `String(n)` renders an integer in decimal.
-/

/-- Numeric value of a decimal digit character. -/
def digitVal (c : Char) : Nat := c.toNat - '0'.toNat

/-- Accumulate a list of decimal digit characters into a natural number. -/
def digitsToNat (l : List Char) : Nat := l.foldl (fun n c => n * 10 + digitVal c) 0

/-- Split an optional leading sign character, as `parseInt` does. -/
def signSplit (l : List Char) : Int × List Char :=
  match l with
  | [] => (1, [])
  | c :: rest =>
    if c = '-' then (-1, rest) else if c = '+' then (1, rest) else (1, c :: rest)

/-- Model of JS `parseInt(s, 10)` acting on the character list of `s`;
`none` models NaN. -/
def jsParseIntChars (l : List Char) : Option Int :=
  let l1 := l.dropWhile (fun c => c.isWhitespace)
  let sr := signSplit l1
  let ds := sr.2.takeWhile (fun c => c.isDigit)
  if ds.isEmpty then none else some (sr.1 * (digitsToNat ds : Int))

/-- Model of JS `parseInt(s, 10)`. -/
def jsParseInt (s : String) : Option Int := jsParseIntChars s.data

/-- Model of the JS idiom `parseInt(s, 10) || 0` (NaN is falsy, so it
falls back to `0`; `-0` also falls back to `0`, which coincides with `0`
here). -/
def jsParseIntOr0 (s : String) : Int := (jsParseInt s).getD 0

/-- Model of JS `String(n)` for an integer-valued number. -/
def jsIntToString (n : Int) : String :=
  if n < 0 then "-" ++ Nat.repr (-n).toNat else Nat.repr n.toNat

/-- Model of JS `s.trim()`: strip whitespace from both ends. -/
def jsTrim (s : String) : String :=
  ⟨((s.data.dropWhile Char.isWhitespace).reverse.dropWhile Char.isWhitespace).reverse⟩

/-- A JS string is falsy exactly when it is empty (`!s`). -/
def jsIsFalsyString (s : String) : Bool := s.data.isEmpty

/-! Round-trip facts: the decimal rendering of a natural number parses
back to itself.  These underpin the freshness of generated ids. -/

theorem digitChar_isDigit {m : Nat} (h : m < 10) : (Nat.digitChar m).isDigit = true := by
  interval_cases m <;> decide

theorem digitVal_digitChar {m : Nat} (h : m < 10) : digitVal (Nat.digitChar m) = m := by
  interval_cases m <;> decide

theorem toDigitsCore_append (fuel : Nat) :
    ∀ (n : Nat) (ds : List Char),
      Nat.toDigitsCore 10 fuel n ds = Nat.toDigitsCore 10 fuel n [] ++ ds := by
  induction fuel with
  | zero => intro n ds; simp [Nat.toDigitsCore]
  | succ fuel ih =>
    intro n ds
    simp only [Nat.toDigitsCore]
    by_cases h : n / 10 = 0
    · simp [h]
    · simp only [h, if_false]
      rw [ih (n / 10) (Nat.digitChar (n % 10) :: ds), ih (n / 10) [Nat.digitChar (n % 10)]]
      simp

theorem toDigitsCore_fuel :
    ∀ (f1 : Nat), ∀ (f2 n : Nat), n < f1 → n < f2 →
      Nat.toDigitsCore 10 f1 n [] = Nat.toDigitsCore 10 f2 n [] := by
  intro f1
  induction f1 with
  | zero => intro f2 n h1 _; omega
  | succ f1 ih =>
    intro f2 n h1 h2
    cases f2 with
    | zero => omega
    | succ f2 =>
      simp only [Nat.toDigitsCore]
      by_cases h : n / 10 = 0
      · simp [h]
      · have hn : 10 ≤ n := by
          by_contra hc
          push_neg at hc
          exact h (Nat.div_eq_of_lt hc)
        have hdiv : n / 10 < n := Nat.div_lt_self (by omega) (by norm_num)
        simp only [h, if_false]
        rw [toDigitsCore_append f1, toDigitsCore_append f2]
        rw [ih f2 (n / 10) (by omega) (by omega)]

theorem toDigits_of_lt {n : Nat} (h : n < 10) :
    Nat.toDigits 10 n = [Nat.digitChar n] := by
  simp only [Nat.toDigits, Nat.toDigitsCore]
  rw [Nat.div_eq_of_lt h]
  simp [Nat.mod_eq_of_lt h]

theorem toDigitsCore_succ (fuel n : Nat) (ds : List Char) :
    Nat.toDigitsCore 10 (fuel + 1) n ds =
      if n / 10 = 0 then Nat.digitChar (n % 10) :: ds
      else Nat.toDigitsCore 10 fuel (n / 10) (Nat.digitChar (n % 10) :: ds) := rfl

theorem toDigits_of_ge {n : Nat} (h : 10 ≤ n) :
    Nat.toDigits 10 n = Nat.toDigits 10 (n / 10) ++ [Nat.digitChar (n % 10)] := by
  have hdiv0 : n / 10 ≠ 0 := by omega
  rw [show Nat.toDigits 10 n = Nat.toDigitsCore 10 (n + 1) n [] from rfl,
    toDigitsCore_succ, if_neg hdiv0, toDigitsCore_append n,
    toDigitsCore_fuel n (n / 10 + 1) (n / 10) (by omega) (by omega)]
  rfl

theorem toDigits_all_digit (n : Nat) :
    ∀ c ∈ Nat.toDigits 10 n, c.isDigit = true := by
  induction n using Nat.strong_induction_on with
  | _ n ih =>
    by_cases h : n < 10
    · rw [toDigits_of_lt h]
      intro c hc
      simp only [List.mem_singleton] at hc
      subst hc
      exact digitChar_isDigit h
    · push_neg at h
      rw [toDigits_of_ge h]
      intro c hc
      rcases List.mem_append.1 hc with h1 | h1
      · exact ih (n / 10) (Nat.div_lt_self (by omega) (by norm_num)) c h1
      · simp only [List.mem_singleton] at h1
        subst h1
        exact digitChar_isDigit (Nat.mod_lt _ (by norm_num))

theorem digitsToNat_toDigits (n : Nat) : digitsToNat (Nat.toDigits 10 n) = n := by
  induction n using Nat.strong_induction_on with
  | _ n ih =>
    by_cases h : n < 10
    · rw [toDigits_of_lt h]
      simp [digitsToNat, digitVal_digitChar h]
    · push_neg at h
      rw [toDigits_of_ge h]
      have hdiv : n / 10 < n := Nat.div_lt_self (by omega) (by norm_num)
      have hmod : n % 10 < 10 := Nat.mod_lt _ (by norm_num)
      simp only [digitsToNat, List.foldl_append, List.foldl_cons, List.foldl_nil]
      have hrec := ih (n / 10) hdiv
      simp only [digitsToNat] at hrec
      rw [hrec, digitVal_digitChar hmod]
      omega

theorem toDigits_ne_nil (n : Nat) : Nat.toDigits 10 n ≠ [] := by
  by_cases h : n < 10
  · rw [toDigits_of_lt h]; simp
  · push_neg at h
    rw [toDigits_of_ge h]; simp

theorem isDigit_not_whitespace {c : Char} (h : c.isDigit = true) :
    c.isWhitespace = false := by
  simp only [Char.isDigit, Bool.and_eq_true, decide_eq_true_eq] at h
  simp only [Char.isWhitespace]
  have h0 : ('0' : Char) ≤ c := h.1
  have hval : (48 : UInt32) ≤ c.val := h0
  simp only [Bool.or_eq_false_iff, decide_eq_false_iff_not]
  repeat' apply And.intro
  all_goals (intro hc; subst hc; revert hval; decide)

theorem isDigit_ne_dash {c : Char} (h : c.isDigit = true) : c ≠ '-' := by
  intro hc; subst hc; simp [Char.isDigit] at h

theorem isDigit_ne_plus {c : Char} (h : c.isDigit = true) : c ≠ '+' := by
  intro hc; subst hc; simp [Char.isDigit] at h

theorem takeWhile_isDigit_of_all {l : List Char}
    (h : ∀ c ∈ l, c.isDigit = true) :
    l.takeWhile (fun c => c.isDigit) = l := by
  induction l with
  | nil => rfl
  | cons c cs ih =>
    rw [List.takeWhile_cons]
    simp only [h c (List.mem_cons_self c cs), if_true]
    rw [ih (fun x hx => h x (List.mem_cons_of_mem c hx))]

theorem jsParseIntChars_toDigits (n : Nat) :
    jsParseIntChars (Nat.toDigits 10 n) = some n := by
  obtain ⟨c, cs, hl⟩ : ∃ c cs, Nat.toDigits 10 n = c :: cs := by
    cases h : Nat.toDigits 10 n with
    | nil => exact absurd h (toDigits_ne_nil n)
    | cons c cs => exact ⟨c, cs, rfl⟩
  have hall := toDigits_all_digit n
  rw [hl] at hall
  have hc : c.isDigit = true := hall c (List.mem_cons_self c cs)
  unfold jsParseIntChars
  rw [hl, List.dropWhile_cons]
  simp only [isDigit_not_whitespace hc, Bool.false_eq_true, if_false]
  simp only [signSplit, if_neg (isDigit_ne_dash hc), if_neg (isDigit_ne_plus hc)]
  rw [takeWhile_isDigit_of_all hall]
  have hne : (c :: cs).isEmpty = false := rfl
  simp only [hne, Bool.false_eq_true, if_false]
  rw [← hl, digitsToNat_toDigits]
  simp

theorem jsParseInt_natRepr (n : Nat) : jsParseInt (Nat.repr n) = some n := by
  have hdata : (Nat.repr n).data = Nat.toDigits 10 n := rfl
  unfold jsParseInt
  rw [hdata]
  exact jsParseIntChars_toDigits n

theorem jsParseIntOr0_natRepr (n : Nat) : jsParseIntOr0 (Nat.repr n) = n := by
  simp [jsParseIntOr0, jsParseInt_natRepr]

theorem jsParseIntOr0_jsIntToString {n : Int} (h : 0 ≤ n) :
    jsParseIntOr0 (jsIntToString n) = n := by
  unfold jsIntToString
  rw [if_neg (by omega)]
  rw [jsParseIntOr0_natRepr]
  exact Int.toNat_of_nonneg h

/-! ### Data model (`src/types/propertyType.ts`, `src/types/listingType.ts`,
`src/stores/listingStore.ts`)

Field names with spaces or hyphens in TypeScript (`"built-up"`,
`"rent price"`, `"sale price"`) become camel-cased Lean fields. -/

/-- Owner record embedded in both entities. -/
structure Owner where
  id : String
  name : String
  profilePic : String
deriving DecidableEq

/-- `"to do" | "in progress" | "completed" | "pending review"`. -/
inductive ListingStatus where
  | todo
  | inProgress
  | completed
  | pendingReview
deriving DecidableEq

/-- `"fully" | "partially" | "unfurnished"`. -/
inductive Furnishing where
  | fully
  | partially
  | unfurnished
deriving DecidableEq

/-- `"active" | "inactive"`. -/
inductive PropertyStatus where
  | active
  | inactive
deriving DecidableEq

/-- The `Listing` record of `listingStore.ts`. -/
structure Listing where
  id : String
  title : String
  description : String
  owner : Owner
  topic : String
  subject : String
  dateCreated : String
  deadline : String
  budget : Int
  status : ListingStatus
deriving DecidableEq

/-- The `PropertyListing` record of `propertyType.ts`. -/
structure PropertyListing where
  id : String
  title : String
  type : String
  subtype : String
  area : String
  bedroom : Int
  bathroom : Int
  furnishing : Furnishing
  carpark : Int
  owner : Owner
  builtUp : String
  rentPrice : Int
  salePrice : Int
  status : PropertyStatus
deriving DecidableEq

/-- `Omit<Listing, "id">`: the payload of `apiSimulation.listings.create`. -/
structure ListingCreateData where
  title : String
  description : String
  owner : Owner
  topic : String
  subject : String
  dateCreated : String
  deadline : String
  budget : Int
  status : ListingStatus
deriving DecidableEq

/-- `{ id, ...listingData }`: build a listing from a generated id. -/
def makeListing (id : String) (d : ListingCreateData) : Listing :=
  ⟨id, d.title, d.description, d.owner, d.topic, d.subject, d.dateCreated,
    d.deadline, d.budget, d.status⟩

/-- `Partial<Listing>`: each field optionally present. -/
structure ListingUpdate where
  id : Option String := none
  title : Option String := none
  description : Option String := none
  owner : Option Owner := none
  topic : Option String := none
  subject : Option String := none
  dateCreated : Option String := none
  deadline : Option String := none
  budget : Option Int := none
  status : Option ListingStatus := none
deriving DecidableEq

/-- The object spread `{ ...old, ...updates }`: a present field of
`updates` wins, an absent one keeps the old value. -/
def mergeListing (old : Listing) (u : ListingUpdate) : Listing :=
  ⟨u.id.getD old.id, u.title.getD old.title, u.description.getD old.description,
    u.owner.getD old.owner, u.topic.getD old.topic, u.subject.getD old.subject,
    u.dateCreated.getD old.dateCreated, u.deadline.getD old.deadline,
    u.budget.getD old.budget, u.status.getD old.status⟩

/-- `Omit<PropertyListing, "id">`: the payload of
`propertyApiSimulation.properties.create`. -/
structure PropertyCreateData where
  title : String
  type : String
  subtype : String
  area : String
  bedroom : Int
  bathroom : Int
  furnishing : Furnishing
  carpark : Int
  owner : Owner
  builtUp : String
  rentPrice : Int
  salePrice : Int
  status : PropertyStatus
deriving DecidableEq

/-- `{ id, ...propertyData }`: build a property from a generated id. -/
def makeProperty (id : String) (d : PropertyCreateData) : PropertyListing :=
  ⟨id, d.title, d.type, d.subtype, d.area, d.bedroom, d.bathroom, d.furnishing,
    d.carpark, d.owner, d.builtUp, d.rentPrice, d.salePrice, d.status⟩

/-- `Partial<PropertyListing>`. -/
structure PropertyUpdate where
  id : Option String := none
  title : Option String := none
  type : Option String := none
  subtype : Option String := none
  area : Option String := none
  bedroom : Option Int := none
  bathroom : Option Int := none
  furnishing : Option Furnishing := none
  carpark : Option Int := none
  owner : Option Owner := none
  builtUp : Option String := none
  rentPrice : Option Int := none
  salePrice : Option Int := none
  status : Option PropertyStatus := none
deriving DecidableEq

/-- `{ ...old, ...updates }` for properties. -/
def mergeProperty (old : PropertyListing) (u : PropertyUpdate) : PropertyListing :=
  ⟨u.id.getD old.id, u.title.getD old.title, u.type.getD old.type,
    u.subtype.getD old.subtype, u.area.getD old.area, u.bedroom.getD old.bedroom,
    u.bathroom.getD old.bathroom, u.furnishing.getD old.furnishing,
    u.carpark.getD old.carpark, u.owner.getD old.owner,
    u.builtUp.getD old.builtUp, u.rentPrice.getD old.rentPrice,
    u.salePrice.getD old.salePrice, u.status.getD old.status⟩

/-! ### Generic list surgery

`findIndex` followed by an in-place replacement (`db.listings[i] = r`) or
by `splice(i, 1)` is modelled by one recursive pass that acts on the
first match and returns `none` when there is none. -/

/-- Replace the first element satisfying `p` by its image under `f`;
also return that image.  `none` when no element matches. -/
def updateFirstBy (p : α → Bool) (f : α → α) : List α → Option (List α × α)
  | [] => none
  | x :: xs =>
    if p x then some (f x :: xs, f x)
    else (updateFirstBy p f xs).map (fun yr => (x :: yr.1, yr.2))

/-- Remove the first element satisfying `p` (`splice(i, 1)` at the found
index); `none` when no element matches. -/
def deleteFirstBy (p : α → Bool) : List α → Option (List α)
  | [] => none
  | x :: xs => if p x then some xs else (deleteFirstBy p xs).map (fun ys => x :: ys)

theorem updateFirstBy_eq_none_iff {p : α → Bool} {f : α → α} {l : List α} :
    updateFirstBy p f l = none ↔ ∀ x ∈ l, p x = false := by
  induction l with
  | nil => simp [updateFirstBy]
  | cons x xs ih =>
    by_cases hx : p x
    · simp [updateFirstBy, hx]
    · have hx' : p x = false := by simpa using hx
      simp [updateFirstBy, hx', Option.map_eq_none', ih]

theorem deleteFirstBy_eq_none_iff {p : α → Bool} {l : List α} :
    deleteFirstBy p l = none ↔ ∀ x ∈ l, p x = false := by
  induction l with
  | nil => simp [deleteFirstBy]
  | cons x xs ih =>
    by_cases hx : p x
    · simp [deleteFirstBy, hx]
    · have hx' : p x = false := by simpa using hx
      simp [deleteFirstBy, hx', Option.map_eq_none', ih]

theorem updateFirstBy_eq_some {p : α → Bool} {f : α → α} {l ys : List α} {r : α}
    (h : updateFirstBy p f l = some (ys, r)) :
    ∃ pre x post, l = pre ++ x :: post ∧ (∀ y ∈ pre, p y = false) ∧ p x = true ∧
      r = f x ∧ ys = pre ++ f x :: post := by
  induction l generalizing ys r with
  | nil => simp [updateFirstBy] at h
  | cons a xs ih =>
    by_cases ha : p a
    · simp only [updateFirstBy, ha, if_true, Option.some.injEq, Prod.mk.injEq] at h
      exact ⟨[], a, xs, rfl, by simp, ha, h.2.symm, by simp [h.1.symm]⟩
    · have ha' : p a = false := by simpa using ha
      simp only [updateFirstBy, ha', Bool.false_eq_true, if_false,
        Option.map_eq_some'] at h
      obtain ⟨⟨ys', r'⟩, hrec, heq⟩ := h
      simp only [Prod.mk.injEq] at heq
      obtain ⟨pre, x, post, hsplit, hpre, hx, hr, hys⟩ := ih hrec
      refine ⟨a :: pre, x, post, by rw [hsplit]; rfl, ?_, hx, ?_, ?_⟩
      · intro y hy
        rcases List.mem_cons.1 hy with rfl | hy
        · exact ha'
        · exact hpre y hy
      · rw [← heq.2, hr]
      · rw [← heq.1, hys]; rfl

theorem deleteFirstBy_eq_some {p : α → Bool} {l ys : List α}
    (h : deleteFirstBy p l = some ys) :
    ∃ pre x post, l = pre ++ x :: post ∧ (∀ y ∈ pre, p y = false) ∧ p x = true ∧
      ys = pre ++ post := by
  induction l generalizing ys with
  | nil => simp [deleteFirstBy] at h
  | cons a xs ih =>
    by_cases ha : p a
    · simp only [deleteFirstBy, ha, if_true, Option.some.injEq] at h
      exact ⟨[], a, xs, rfl, by simp, ha, h.symm⟩
    · have ha' : p a = false := by simpa using ha
      simp only [deleteFirstBy, ha', Bool.false_eq_true, if_false,
        Option.map_eq_some'] at h
      obtain ⟨ys', hrec, heq⟩ := h
      obtain ⟨pre, x, post, hsplit, hpre, hx, hys⟩ := ih hrec
      refine ⟨a :: pre, x, post, by rw [hsplit]; rfl, ?_, hx, ?_⟩
      · intro y hy
        rcases List.mem_cons.1 hy with rfl | hy
        · exact ha'
        · exact hpre y hy
      · rw [← heq, hys]; rfl

/-! ### The mock listing API (`src/services/apiSimulation.ts`)

The global `__API_SIMULATION` object `{ listings, nextId }` becomes an
explicit state.  Each operation returns the call's outcome (`Except`
models a thrown exception) paired with the resulting state; a throw
happens before any mutation in the source, so the state component is the
unchanged input state in every error case. -/

/-- The in-memory database held on the window object. -/
structure ListingDb where
  listings : List Listing
  nextId : Int
deriving DecidableEq

namespace ApiSimulation

/-- `calculateNextId`: highest `parseInt(id, 10) || 0` plus one. -/
def calculateNextId (listings : List Listing) : Int :=
  (listings.foldl (fun m l => max m (jsParseIntOr0 l.id)) 0) + 1

/-- The initial database built from the JSON fixture. -/
def initialDb (fixture : List Listing) : ListingDb :=
  ⟨fixture, calculateNextId fixture⟩

/-- `apiSimulation.listings.getAll`. -/
def getAll (db : ListingDb) : List Listing × ListingDb := (db.listings, db)

/-- `apiSimulation.listings.getById`. -/
def getById (db : ListingDb) (id : String) : Except String Listing × ListingDb :=
  match db.listings.find? (fun l => l.id == id) with
  | none => (.error ("Listing with ID " ++ id ++ " not found"), db)
  | some l => (.ok l, db)

/-- `apiSimulation.listings.create`. -/
def create (db : ListingDb) (data : ListingCreateData) :
    Except String Listing × ListingDb :=
  if jsIsFalsyString (jsTrim data.title) then (.error "Listing title is required", db)
  else if jsIsFalsyString data.deadline then (.error "Listing deadline is required", db)
  else
    let newListing := makeListing (jsIntToString db.nextId) data
    (.ok newListing, ⟨db.listings ++ [newListing], db.nextId + 1⟩)

/-- `apiSimulation.listings.update`. -/
def update (db : ListingDb) (id : String) (u : ListingUpdate) :
    Except String Listing × ListingDb :=
  match updateFirstBy (fun l => l.id == id) (fun l => mergeListing l u) db.listings with
  | none => (.error ("Listing with ID " ++ id ++ " not found"), db)
  | some (ls, r) => (.ok r, ⟨ls, db.nextId⟩)

/-- `apiSimulation.listings.delete`. -/
def delete (db : ListingDb) (id : String) : Except String Unit × ListingDb :=
  match deleteFirstBy (fun l => l.id == id) db.listings with
  | none => (.error ("Listing with ID " ++ id ++ " not found"), db)
  | some ls => (.ok (), ⟨ls, db.nextId⟩)

end ApiSimulation

/-! ### The mock property API (`src/services/propertyApiSimulation.ts`) -/

/-- The in-memory database held on `__PROPERTY_API_SIMULATION`. -/
structure PropertyDb where
  properties : List PropertyListing
  nextId : Int
deriving DecidableEq

namespace PropertyApiSimulation

/-- `calculateNextId`: highest `parseInt(id, 10) || 0` plus one. -/
def calculateNextId (properties : List PropertyListing) : Int :=
  (properties.foldl (fun m p => max m (jsParseIntOr0 p.id)) 0) + 1

/-- The initial database built from the JSON fixture. -/
def initialDb (fixture : List PropertyListing) : PropertyDb :=
  ⟨fixture, calculateNextId fixture⟩

/-- `propertyApiSimulation.properties.getAll`. -/
def getAll (db : PropertyDb) : List PropertyListing × PropertyDb := (db.properties, db)

/-- `propertyApiSimulation.properties.getById`. -/
def getById (db : PropertyDb) (id : String) :
    Except String PropertyListing × PropertyDb :=
  match db.properties.find? (fun p => p.id == id) with
  | none => (.error ("Property with ID " ++ id ++ " not found"), db)
  | some p => (.ok p, db)

/-- `propertyApiSimulation.properties.create`. -/
def create (db : PropertyDb) (data : PropertyCreateData) :
    Except String PropertyListing × PropertyDb :=
  if jsIsFalsyString (jsTrim data.title) then (.error "Property title is required", db)
  else if jsIsFalsyString data.area then (.error "Property area is required", db)
  else
    let newProperty := makeProperty (jsIntToString db.nextId) data
    (.ok newProperty, ⟨db.properties ++ [newProperty], db.nextId + 1⟩)

/-- `propertyApiSimulation.properties.update`. -/
def update (db : PropertyDb) (id : String) (u : PropertyUpdate) :
    Except String PropertyListing × PropertyDb :=
  match updateFirstBy (fun p => p.id == id) (fun p => mergeProperty p u) db.properties with
  | none => (.error ("Property with ID " ++ id ++ " not found"), db)
  | some (ps, r) => (.ok r, ⟨ps, db.nextId⟩)

/-- `propertyApiSimulation.properties.delete`. -/
def delete (db : PropertyDb) (id : String) : Except String Unit × PropertyDb :=
  match deleteFirstBy (fun p => p.id == id) db.properties with
  | none => (.error ("Property with ID " ++ id ++ " not found"), db)
  | some ps => (.ok (), ⟨ps, db.nextId⟩)

end PropertyApiSimulation

/-! ### Reachable database states

One step is one mock-API mutation call (`create`, `update` or `delete`),
successful or throwing; a throwing call leaves the state unchanged, so it
is modelled by the state component the operation returns. -/

/-- One listing-API call. -/
inductive ListingStep : ListingDb → ListingDb → Prop where
  | create (db : ListingDb) (data : ListingCreateData) :
      ListingStep db (ApiSimulation.create db data).2
  | update (db : ListingDb) (id : String) (u : ListingUpdate) :
      ListingStep db (ApiSimulation.update db id u).2
  | delete (db : ListingDb) (id : String) :
      ListingStep db (ApiSimulation.delete db id).2

/-- Listing states reachable by any sequence of mock-API calls. -/
def ListingReachable : ListingDb → ListingDb → Prop :=
  Relation.ReflTransGen ListingStep

/-- One listing-API call whose `update` payload does not set `id`. -/
inductive ListingStepNoIdUpdate : ListingDb → ListingDb → Prop where
  | create (db : ListingDb) (data : ListingCreateData) :
      ListingStepNoIdUpdate db (ApiSimulation.create db data).2
  | update (db : ListingDb) (id : String) (u : ListingUpdate) (hu : u.id = none) :
      ListingStepNoIdUpdate db (ApiSimulation.update db id u).2
  | delete (db : ListingDb) (id : String) :
      ListingStepNoIdUpdate db (ApiSimulation.delete db id).2

/-- Reachability under id-preserving update payloads. -/
def ListingReachableNoIdUpdate : ListingDb → ListingDb → Prop :=
  Relation.ReflTransGen ListingStepNoIdUpdate

/-- One property-API call. -/
inductive PropertyStep : PropertyDb → PropertyDb → Prop where
  | create (db : PropertyDb) (data : PropertyCreateData) :
      PropertyStep db (PropertyApiSimulation.create db data).2
  | update (db : PropertyDb) (id : String) (u : PropertyUpdate) :
      PropertyStep db (PropertyApiSimulation.update db id u).2
  | delete (db : PropertyDb) (id : String) :
      PropertyStep db (PropertyApiSimulation.delete db id).2

/-- Property states reachable by any sequence of mock-API calls. -/
def PropertyReachable : PropertyDb → PropertyDb → Prop :=
  Relation.ReflTransGen PropertyStep

/-- One property-API call whose `update` payload does not set `id`. -/
inductive PropertyStepNoIdUpdate : PropertyDb → PropertyDb → Prop where
  | create (db : PropertyDb) (data : PropertyCreateData) :
      PropertyStepNoIdUpdate db (PropertyApiSimulation.create db data).2
  | update (db : PropertyDb) (id : String) (u : PropertyUpdate) (hu : u.id = none) :
      PropertyStepNoIdUpdate db (PropertyApiSimulation.update db id u).2
  | delete (db : PropertyDb) (id : String) :
      PropertyStepNoIdUpdate db (PropertyApiSimulation.delete db id).2

/-- Reachability under id-preserving update payloads. -/
def PropertyReachableNoIdUpdate : PropertyDb → PropertyDb → Prop :=
  Relation.ReflTransGen PropertyStepNoIdUpdate

/-! ### The id-uniqueness invariant -/

theorem foldl_max_le_init (f : α → Int) :
    ∀ (l : List α) (a : Int), a ≤ l.foldl (fun m x => max m (f x)) a := by
  intro l
  induction l with
  | nil => intro a; simp
  | cons x xs ih =>
    intro a
    calc a ≤ max a (f x) := le_max_left _ _
    _ ≤ xs.foldl (fun m x => max m (f x)) (max a (f x)) := ih (max a (f x))

theorem le_foldl_max (f : α → Int) :
    ∀ (l : List α) (a : Int), ∀ x ∈ l, f x ≤ l.foldl (fun m x => max m (f x)) a := by
  intro l
  induction l with
  | nil => intro a x hx; cases hx
  | cons y ys ih =>
    intro a x hx
    rcases List.mem_cons.1 hx with rfl | hx
    · calc f x ≤ max a (f x) := le_max_right _ _
      _ ≤ ys.foldl (fun m x => max m (f x)) (max a (f x)) := foldl_max_le_init f ys _
    · exact ih (max a (f y)) x hx

/-- Invariant of the listing store: ids are pairwise distinct, every id's
numeric value is below `nextId`, and `nextId` is nonnegative. -/
def ListingDbInv (db : ListingDb) : Prop :=
  (db.listings.map Listing.id).Nodup ∧
    (∀ l ∈ db.listings, jsParseIntOr0 l.id < db.nextId) ∧ 0 ≤ db.nextId

/-- Invariant of the property store. -/
def PropertyDbInv (db : PropertyDb) : Prop :=
  (db.properties.map PropertyListing.id).Nodup ∧
    (∀ p ∈ db.properties, jsParseIntOr0 p.id < db.nextId) ∧ 0 ≤ db.nextId

theorem listing_initialDb_inv {fixture : List Listing}
    (h : (fixture.map Listing.id).Nodup) :
    ListingDbInv (ApiSimulation.initialDb fixture) := by
  refine ⟨h, ?_, ?_⟩
  · intro l hl
    have h2 : jsParseIntOr0 l.id ≤
        fixture.foldl (fun m l => max m (jsParseIntOr0 l.id)) 0 :=
      le_foldl_max (fun l : Listing => jsParseIntOr0 l.id) fixture 0 l hl
    simp only [ApiSimulation.initialDb, ApiSimulation.calculateNextId]
    omega
  · have h2 : (0 : Int) ≤ fixture.foldl (fun m l => max m (jsParseIntOr0 l.id)) 0 :=
      foldl_max_le_init (fun l : Listing => jsParseIntOr0 l.id) fixture 0
    simp only [ApiSimulation.initialDb, ApiSimulation.calculateNextId]
    omega

theorem property_initialDb_inv {fixture : List PropertyListing}
    (h : (fixture.map PropertyListing.id).Nodup) :
    PropertyDbInv (PropertyApiSimulation.initialDb fixture) := by
  refine ⟨h, ?_, ?_⟩
  · intro p hp
    have h2 : jsParseIntOr0 p.id ≤
        fixture.foldl (fun m p => max m (jsParseIntOr0 p.id)) 0 :=
      le_foldl_max (fun p : PropertyListing => jsParseIntOr0 p.id) fixture 0 p hp
    simp only [PropertyApiSimulation.initialDb, PropertyApiSimulation.calculateNextId]
    omega
  · have h2 : (0 : Int) ≤ fixture.foldl (fun m p => max m (jsParseIntOr0 p.id)) 0 :=
      foldl_max_le_init (fun p : PropertyListing => jsParseIntOr0 p.id) fixture 0
    simp only [PropertyApiSimulation.initialDb, PropertyApiSimulation.calculateNextId]
    omega

theorem listing_create_inv (db : ListingDb) (data : ListingCreateData)
    (h : ListingDbInv db) : ListingDbInv (ApiSimulation.create db data).2 := by
  obtain ⟨hnodup, hbound, hpos⟩ := h
  by_cases h1 : jsIsFalsyString (jsTrim data.title)
  · simpa [ApiSimulation.create, h1] using ⟨hnodup, hbound, hpos⟩
  · by_cases h2 : jsIsFalsyString data.deadline
    · simpa [ApiSimulation.create, h1, h2] using ⟨hnodup, hbound, hpos⟩
    · have hid : jsParseIntOr0 (jsIntToString db.nextId) = db.nextId :=
        jsParseIntOr0_jsIntToString hpos
      simp only [ApiSimulation.create, h1, h2, Bool.false_eq_true, if_false]
      refine ⟨?_, ?_, by simp; omega⟩
      · simp only [List.map_append, List.map_cons, List.map_nil]
        rw [List.nodup_append]
        refine ⟨hnodup, List.nodup_singleton _, ?_⟩
        intro a ha hb
        simp only [List.mem_singleton] at hb
        subst hb
        obtain ⟨l, hl, hlid⟩ := List.mem_map.1 ha
        have : jsParseIntOr0 l.id < db.nextId := hbound l hl
        rw [hlid] at this
        simp only [makeListing] at this
        omega
      · intro l hl
        rcases List.mem_append.1 hl with hl | hl
        · have := hbound l hl; simp only []; omega
        · simp only [List.mem_singleton] at hl
          subst hl
          simp only [makeListing]
          omega

theorem property_create_inv (db : PropertyDb) (data : PropertyCreateData)
    (h : PropertyDbInv db) : PropertyDbInv (PropertyApiSimulation.create db data).2 := by
  obtain ⟨hnodup, hbound, hpos⟩ := h
  by_cases h1 : jsIsFalsyString (jsTrim data.title)
  · simpa [PropertyApiSimulation.create, h1] using ⟨hnodup, hbound, hpos⟩
  · by_cases h2 : jsIsFalsyString data.area
    · simpa [PropertyApiSimulation.create, h1, h2] using ⟨hnodup, hbound, hpos⟩
    · have hid : jsParseIntOr0 (jsIntToString db.nextId) = db.nextId :=
        jsParseIntOr0_jsIntToString hpos
      simp only [PropertyApiSimulation.create, h1, h2, Bool.false_eq_true, if_false]
      refine ⟨?_, ?_, by simp; omega⟩
      · simp only [List.map_append, List.map_cons, List.map_nil]
        rw [List.nodup_append]
        refine ⟨hnodup, List.nodup_singleton _, ?_⟩
        intro a ha hb
        simp only [List.mem_singleton] at hb
        subst hb
        obtain ⟨p, hp, hpid⟩ := List.mem_map.1 ha
        have : jsParseIntOr0 p.id < db.nextId := hbound p hp
        rw [hpid] at this
        simp only [makeProperty] at this
        omega
      · intro p hp
        rcases List.mem_append.1 hp with hp | hp
        · have := hbound p hp; simp only []; omega
        · simp only [List.mem_singleton] at hp
          subst hp
          simp only [makeProperty]
          omega

theorem listing_update_inv (db : ListingDb) (id : String) (u : ListingUpdate)
    (hu : u.id = none) (h : ListingDbInv db) :
    ListingDbInv (ApiSimulation.update db id u).2 := by
  obtain ⟨hnodup, hbound, hpos⟩ := h
  unfold ApiSimulation.update
  cases hfind : updateFirstBy (fun l => l.id == id) (fun l => mergeListing l u) db.listings with
  | none => exact ⟨hnodup, hbound, hpos⟩
  | some v =>
    obtain ⟨ls, r⟩ := v
    obtain ⟨pre, x, post, hsplit, hpre, hx, hr, hys⟩ := updateFirstBy_eq_some hfind
    have hid : (mergeListing x u).id = x.id := by simp [mergeListing, hu]
    simp only []
    refine ⟨?_, ?_, hpos⟩
    · have : ls.map Listing.id = db.listings.map Listing.id := by
        rw [hys, hsplit]
        simp [hid]
      simpa [this] using hnodup
    · intro l hl
      rw [hys] at hl
      rcases List.mem_append.1 hl with hl | hl
      · exact hbound l (by rw [hsplit]; exact List.mem_append.2 (Or.inl hl))
      · rcases List.mem_cons.1 hl with rfl | hl
        · have := hbound x (by rw [hsplit]; exact List.mem_append.2 (Or.inr (List.mem_cons_self _ _)))
          simpa [hid, jsParseIntOr0] using this
        · exact hbound l
            (by rw [hsplit]; exact List.mem_append.2 (Or.inr (List.mem_cons_of_mem _ hl)))

theorem property_update_inv (db : PropertyDb) (id : String) (u : PropertyUpdate)
    (hu : u.id = none) (h : PropertyDbInv db) :
    PropertyDbInv (PropertyApiSimulation.update db id u).2 := by
  obtain ⟨hnodup, hbound, hpos⟩ := h
  unfold PropertyApiSimulation.update
  cases hfind : updateFirstBy (fun p => p.id == id) (fun p => mergeProperty p u) db.properties with
  | none => exact ⟨hnodup, hbound, hpos⟩
  | some v =>
    obtain ⟨ps, r⟩ := v
    obtain ⟨pre, x, post, hsplit, hpre, hx, hr, hys⟩ := updateFirstBy_eq_some hfind
    have hid : (mergeProperty x u).id = x.id := by simp [mergeProperty, hu]
    simp only []
    refine ⟨?_, ?_, hpos⟩
    · have : ps.map PropertyListing.id = db.properties.map PropertyListing.id := by
        rw [hys, hsplit]
        simp [hid]
      simpa [this] using hnodup
    · intro p hp
      rw [hys] at hp
      rcases List.mem_append.1 hp with hp | hp
      · exact hbound p (by rw [hsplit]; exact List.mem_append.2 (Or.inl hp))
      · rcases List.mem_cons.1 hp with rfl | hp
        · have := hbound x (by rw [hsplit]; exact List.mem_append.2 (Or.inr (List.mem_cons_self _ _)))
          simpa [hid, jsParseIntOr0] using this
        · exact hbound p
            (by rw [hsplit]; exact List.mem_append.2 (Or.inr (List.mem_cons_of_mem _ hp)))

theorem listing_delete_inv (db : ListingDb) (id : String) (h : ListingDbInv db) :
    ListingDbInv (ApiSimulation.delete db id).2 := by
  obtain ⟨hnodup, hbound, hpos⟩ := h
  unfold ApiSimulation.delete
  cases hfind : deleteFirstBy (fun l => l.id == id) db.listings with
  | none => exact ⟨hnodup, hbound, hpos⟩
  | some ls =>
    obtain ⟨pre, x, post, hsplit, hpre, hx, hys⟩ := deleteFirstBy_eq_some hfind
    have hsub : ls.Sublist db.listings := by
      rw [hys, hsplit]
      exact List.Sublist.append (List.Sublist.refl pre) (List.sublist_cons_self x post)
    refine ⟨?_, ?_, hpos⟩
    · exact hnodup.sublist (hsub.map Listing.id)
    · intro l hl
      exact hbound l (hsub.mem hl)

theorem property_delete_inv (db : PropertyDb) (id : String) (h : PropertyDbInv db) :
    PropertyDbInv (PropertyApiSimulation.delete db id).2 := by
  obtain ⟨hnodup, hbound, hpos⟩ := h
  unfold PropertyApiSimulation.delete
  cases hfind : deleteFirstBy (fun p => p.id == id) db.properties with
  | none => exact ⟨hnodup, hbound, hpos⟩
  | some ps =>
    obtain ⟨pre, x, post, hsplit, hpre, hx, hys⟩ := deleteFirstBy_eq_some hfind
    have hsub : ps.Sublist db.properties := by
      rw [hys, hsplit]
      exact List.Sublist.append (List.Sublist.refl pre) (List.sublist_cons_self x post)
    refine ⟨?_, ?_, hpos⟩
    · exact hnodup.sublist (hsub.map PropertyListing.id)
    · intro p hp
      exact hbound p (hsub.mem hp)

theorem listing_reachable_inv {db db' : ListingDb} (h : ListingDbInv db)
    (hr : ListingReachableNoIdUpdate db db') : ListingDbInv db' := by
  induction hr with
  | refl => exact h
  | tail _ hstep ih =>
    cases hstep with
    | create data => exact listing_create_inv _ data ih
    | update id u hu => exact listing_update_inv _ id u hu ih
    | delete id => exact listing_delete_inv _ id ih

theorem property_reachable_inv {db db' : PropertyDb} (h : PropertyDbInv db)
    (hr : PropertyReachableNoIdUpdate db db') : PropertyDbInv db' := by
  induction hr with
  | refl => exact h
  | tail _ hstep ih =>
    cases hstep with
    | create data => exact property_create_inv _ data ih
    | update id u hu => exact property_update_inv _ id u hu ih
    | delete id => exact property_delete_inv _ id ih

/-! ### Concrete fixture stand-ins

The JSON fixtures (`userListingData.json`, `ListingData.json`) imported by
the two simulation modules are not among the provided sources. -/

/-- Owner record used by the concrete fixtures and instances below. -/
def sampleOwner : Owner := ⟨"9", "A", "p"⟩

/-- First sample listing record. -/
def fixtureListing1 : Listing :=
  ⟨"1", "Logo design", "d1", sampleOwner, "Design", "Logo",
    "2025-01-01", "2025-02-01", 100, .todo⟩

/-- Second sample listing record. -/
def fixtureListing2 : Listing :=
  ⟨"2", "Web audit", "d2", sampleOwner, "Dev", "Audit",
    "2025-01-02", "2025-03-01", 200, .inProgress⟩

/-- Modelled from the spec: `userListingData.json`, the static JSON fixture
of listing records behind `apiSimulation.ts`, is absent from the sources;
the spec records only that it is a static array of listing records whose ids
are assigned numerically.  Two sample records with distinct numeric ids. -/
def initialListingData : List Listing := [fixtureListing1, fixtureListing2]

/-- First sample property record. -/
def fixtureProperty1 : PropertyListing :=
  ⟨"1", "Sunway Apt", "Residential", "Apartment/Flat", "Sunway", 3, 2, .fully, 1,
    sampleOwner, "1,000", 1500, 450000, .active⟩

/-- Second sample property record. -/
def fixtureProperty2 : PropertyListing :=
  ⟨"2", "KL Condo", "Residential", "Condo", "KL", 2, 1, .partially, 1,
    sampleOwner, "900", 1200, 380000, .active⟩

/-- Modelled from the spec: `ListingData.json`, the static JSON fixture of
property records behind `propertyApiSimulation.ts`, is absent from the
sources.  Two sample records with distinct numeric ids. -/
def initialPropertyData : List PropertyListing := [fixtureProperty1, fixtureProperty2]

/-- An update payload that sets only the `id` field, to `"2"`. -/
def idOnlyUpdate : ListingUpdate :=
  ⟨some "2", none, none, none, none, none, none, none, none, none⟩

/-- The listing state after `update("1", { id: "2" })` from the fixture state. -/
def badListingDb : ListingDb :=
  (ApiSimulation.update (ApiSimulation.initialDb initialListingData) "1" idOnlyUpdate).2

/-- C1 fails as stated: from the initial fixture state, the single mock-API
call `update("1", { id: "2" })` — a legal `Partial<Listing>` payload —
yields a reachable state in which two listings share the id `"2"`. -/
theorem claim1_counterexample :
    ListingReachable (ApiSimulation.initialDb initialListingData) badListingDb ∧
      ¬ (badListingDb.listings.map Listing.id).Nodup := by
  constructor
  · exact Relation.ReflTransGen.single
      (ListingStep.update (ApiSimulation.initialDb initialListingData) "1" idOnlyUpdate)
  · decide

/-- C1 (amended): id uniqueness within each collection is an invariant for
every database state reachable from an initial fixture state with
pairwise-distinct ids by create, update and delete calls whose update
payloads do not set the `id` field.  (As literally stated the claim is
false, since an update payload may set `id`; see the counterexample.) -/
theorem claim1_id_uniqueness_invariant
    (fixtureL : List Listing) (fixtureP : List PropertyListing)
    (hL : (fixtureL.map Listing.id).Nodup)
    (hP : (fixtureP.map PropertyListing.id).Nodup)
    (dbL : ListingDb) (dbP : PropertyDb)
    (hrL : ListingReachableNoIdUpdate (ApiSimulation.initialDb fixtureL) dbL)
    (hrP : PropertyReachableNoIdUpdate (PropertyApiSimulation.initialDb fixtureP) dbP) :
    (dbL.listings.map Listing.id).Nodup ∧
      (dbP.properties.map PropertyListing.id).Nodup :=
  ⟨(listing_reachable_inv (listing_initialDb_inv hL) hrL).1,
   (property_reachable_inv (property_initialDb_inv hP) hrP).1⟩

/-- A well-formed create payload for listings. -/
def sampleListingCreate : ListingCreateData :=
  ⟨"New task", "d3", sampleOwner, "Design", "Logo", "2025-01-03", "2025-04-01", 50, .todo⟩

/-- A well-formed create payload for properties. -/
def samplePropertyCreate : PropertyCreateData :=
  ⟨"PJ House", "Residential", "Terrace", "PJ", 4, 3, .unfurnished, 2, sampleOwner,
    "2,200", 2500, 900000, .active⟩

theorem claim1_witness :
    (((ApiSimulation.create (ApiSimulation.initialDb initialListingData)
        sampleListingCreate).2.listings.map Listing.id).Nodup ∧
      ((PropertyApiSimulation.create (PropertyApiSimulation.initialDb initialPropertyData)
        samplePropertyCreate).2.properties.map PropertyListing.id).Nodup) :=
  claim1_id_uniqueness_invariant initialListingData initialPropertyData
    (by decide) (by decide) _ _
    (Relation.ReflTransGen.single
      (ListingStepNoIdUpdate.create (ApiSimulation.initialDb initialListingData)
        sampleListingCreate))
    (Relation.ReflTransGen.single
      (PropertyStepNoIdUpdate.create (PropertyApiSimulation.initialDb initialPropertyData)
        samplePropertyCreate))

/-! ### Locating the first match

`findIndex` splits the array into a prefix of non-matches, the matched
record, and the rest; the mutation then acts only on the matched cell. -/

theorem updateFirstBy_split {p : α → Bool} {f : α → α} {pre post : List α} {x : α}
    (hpre : ∀ y ∈ pre, p y = false) (hx : p x = true) :
    updateFirstBy p f (pre ++ x :: post) = some (pre ++ f x :: post, f x) := by
  induction pre with
  | nil => simp [updateFirstBy, hx]
  | cons a as ih =>
    have ha : p a = false := hpre a (List.mem_cons_self a as)
    simp [updateFirstBy, ha, ih (fun y hy => hpre y (List.mem_cons_of_mem a hy))]

theorem deleteFirstBy_split {p : α → Bool} {pre post : List α} {x : α}
    (hpre : ∀ y ∈ pre, p y = false) (hx : p x = true) :
    deleteFirstBy p (pre ++ x :: post) = some (pre ++ post) := by
  induction pre with
  | nil => simp [deleteFirstBy, hx]
  | cons a as ih =>
    have ha : p a = false := hpre a (List.mem_cons_self a as)
    simp [deleteFirstBy, ha, ih (fun y hy => hpre y (List.mem_cons_of_mem a hy))]

theorem listing_update_of_mem {db : ListingDb} {id : String} (u : ListingUpdate)
    (h : ∃ l ∈ db.listings, l.id = id) :
    ∃ pre x post, db.listings = pre ++ x :: post ∧ (∀ y ∈ pre, y.id ≠ id) ∧ x.id = id ∧
      ApiSimulation.update db id u =
        (.ok (mergeListing x u), ⟨pre ++ mergeListing x u :: post, db.nextId⟩) := by
  cases hfind : updateFirstBy (fun l => l.id == id) (fun l => mergeListing l u) db.listings with
  | none =>
    rw [updateFirstBy_eq_none_iff] at hfind
    obtain ⟨l, hl, hlid⟩ := h
    have := hfind l hl
    rw [hlid] at this
    simp at this
  | some v =>
    obtain ⟨ls, r⟩ := v
    obtain ⟨pre, x, post, hsplit, hpre, hx, hr, hys⟩ := updateFirstBy_eq_some hfind
    refine ⟨pre, x, post, hsplit, ?_, by simpa using hx, ?_⟩
    · intro y hy
      have := hpre y hy
      simpa using this
    · rw [ApiSimulation.update, hfind, hr, hys]

theorem property_update_of_mem {db : PropertyDb} {id : String} (u : PropertyUpdate)
    (h : ∃ p ∈ db.properties, p.id = id) :
    ∃ pre x post, db.properties = pre ++ x :: post ∧ (∀ y ∈ pre, y.id ≠ id) ∧ x.id = id ∧
      PropertyApiSimulation.update db id u =
        (.ok (mergeProperty x u), ⟨pre ++ mergeProperty x u :: post, db.nextId⟩) := by
  cases hfind : updateFirstBy (fun p => p.id == id) (fun p => mergeProperty p u) db.properties with
  | none =>
    rw [updateFirstBy_eq_none_iff] at hfind
    obtain ⟨l, hl, hlid⟩ := h
    have := hfind l hl
    rw [hlid] at this
    simp at this
  | some v =>
    obtain ⟨ps, r⟩ := v
    obtain ⟨pre, x, post, hsplit, hpre, hx, hr, hys⟩ := updateFirstBy_eq_some hfind
    refine ⟨pre, x, post, hsplit, ?_, by simpa using hx, ?_⟩
    · intro y hy
      have := hpre y hy
      simpa using this
    · rw [PropertyApiSimulation.update, hfind, hr, hys]

theorem listing_update_eq_of_split {pre post : List Listing} {x : Listing} {id : String}
    (hpre : ∀ y ∈ pre, y.id ≠ id) (hx : x.id = id) (u : ListingUpdate) (nextId : Int) :
    ApiSimulation.update ⟨pre ++ x :: post, nextId⟩ id u =
      (.ok (mergeListing x u), ⟨pre ++ mergeListing x u :: post, nextId⟩) := by
  rw [ApiSimulation.update,
    updateFirstBy_split (fun y hy => by simpa using hpre y hy) (by simpa using hx)]

theorem property_update_eq_of_split {pre post : List PropertyListing}
    {x : PropertyListing} {id : String}
    (hpre : ∀ y ∈ pre, y.id ≠ id) (hx : x.id = id) (u : PropertyUpdate) (nextId : Int) :
    PropertyApiSimulation.update ⟨pre ++ x :: post, nextId⟩ id u =
      (.ok (mergeProperty x u), ⟨pre ++ mergeProperty x u :: post, nextId⟩) := by
  rw [PropertyApiSimulation.update,
    updateFirstBy_split (fun y hy => by simpa using hpre y hy) (by simpa using hx)]

/-! ### Field-wise description of the shallow merge -/

/-- Spec reading of `{ ...old, ...updates }` for listings: every field
present in the payload takes the payload's value; every absent field keeps
the old record's value. -/
def ListingMergeFieldLaws (old : Listing) (u : ListingUpdate) : Prop :=
  (∀ v, u.id = some v → (mergeListing old u).id = v) ∧
  (u.id = none → (mergeListing old u).id = old.id) ∧
  (∀ v, u.title = some v → (mergeListing old u).title = v) ∧
  (u.title = none → (mergeListing old u).title = old.title) ∧
  (∀ v, u.description = some v → (mergeListing old u).description = v) ∧
  (u.description = none → (mergeListing old u).description = old.description) ∧
  (∀ v, u.owner = some v → (mergeListing old u).owner = v) ∧
  (u.owner = none → (mergeListing old u).owner = old.owner) ∧
  (∀ v, u.topic = some v → (mergeListing old u).topic = v) ∧
  (u.topic = none → (mergeListing old u).topic = old.topic) ∧
  (∀ v, u.subject = some v → (mergeListing old u).subject = v) ∧
  (u.subject = none → (mergeListing old u).subject = old.subject) ∧
  (∀ v, u.dateCreated = some v → (mergeListing old u).dateCreated = v) ∧
  (u.dateCreated = none → (mergeListing old u).dateCreated = old.dateCreated) ∧
  (∀ v, u.deadline = some v → (mergeListing old u).deadline = v) ∧
  (u.deadline = none → (mergeListing old u).deadline = old.deadline) ∧
  (∀ v, u.budget = some v → (mergeListing old u).budget = v) ∧
  (u.budget = none → (mergeListing old u).budget = old.budget) ∧
  (∀ v, u.status = some v → (mergeListing old u).status = v) ∧
  (u.status = none → (mergeListing old u).status = old.status)

/-- Spec reading of `{ ...old, ...updates }` for properties. -/
def PropertyMergeFieldLaws (old : PropertyListing) (u : PropertyUpdate) : Prop :=
  (∀ v, u.id = some v → (mergeProperty old u).id = v) ∧
  (u.id = none → (mergeProperty old u).id = old.id) ∧
  (∀ v, u.title = some v → (mergeProperty old u).title = v) ∧
  (u.title = none → (mergeProperty old u).title = old.title) ∧
  (∀ v, u.type = some v → (mergeProperty old u).type = v) ∧
  (u.type = none → (mergeProperty old u).type = old.type) ∧
  (∀ v, u.subtype = some v → (mergeProperty old u).subtype = v) ∧
  (u.subtype = none → (mergeProperty old u).subtype = old.subtype) ∧
  (∀ v, u.area = some v → (mergeProperty old u).area = v) ∧
  (u.area = none → (mergeProperty old u).area = old.area) ∧
  (∀ v, u.bedroom = some v → (mergeProperty old u).bedroom = v) ∧
  (u.bedroom = none → (mergeProperty old u).bedroom = old.bedroom) ∧
  (∀ v, u.bathroom = some v → (mergeProperty old u).bathroom = v) ∧
  (u.bathroom = none → (mergeProperty old u).bathroom = old.bathroom) ∧
  (∀ v, u.furnishing = some v → (mergeProperty old u).furnishing = v) ∧
  (u.furnishing = none → (mergeProperty old u).furnishing = old.furnishing) ∧
  (∀ v, u.carpark = some v → (mergeProperty old u).carpark = v) ∧
  (u.carpark = none → (mergeProperty old u).carpark = old.carpark) ∧
  (∀ v, u.owner = some v → (mergeProperty old u).owner = v) ∧
  (u.owner = none → (mergeProperty old u).owner = old.owner) ∧
  (∀ v, u.builtUp = some v → (mergeProperty old u).builtUp = v) ∧
  (u.builtUp = none → (mergeProperty old u).builtUp = old.builtUp) ∧
  (∀ v, u.rentPrice = some v → (mergeProperty old u).rentPrice = v) ∧
  (u.rentPrice = none → (mergeProperty old u).rentPrice = old.rentPrice) ∧
  (∀ v, u.salePrice = some v → (mergeProperty old u).salePrice = v) ∧
  (u.salePrice = none → (mergeProperty old u).salePrice = old.salePrice) ∧
  (∀ v, u.status = some v → (mergeProperty old u).status = v) ∧
  (u.status = none → (mergeProperty old u).status = old.status)

theorem mergeListing_fieldLaws (old : Listing) (u : ListingUpdate) :
    ListingMergeFieldLaws old u := by
  unfold ListingMergeFieldLaws
  repeat' apply And.intro
  all_goals (intros; simp [mergeListing, *])

theorem mergeProperty_fieldLaws (old : PropertyListing) (u : PropertyUpdate) :
    PropertyMergeFieldLaws old u := by
  unfold PropertyMergeFieldLaws
  repeat' apply And.intro
  all_goals (intros; simp [mergeProperty, *])

/-- C2: update is a shallow merge with last-write-wins semantics.  For any
id present in the collection, `update` replaces exactly the first matching
record by the field-wise merge of the old record and the payload (present
payload fields win, absent ones keep the old value), leaving every other
record and `nextId` unchanged; and a second update through the same id
merges the payload on top of the first result, so every field present in
the second payload ends with the second payload's value. -/
theorem claim2_update_shallow_merge :
    (∀ (db : ListingDb) (id : String) (u : ListingUpdate),
        (∃ l ∈ db.listings, l.id = id) →
        ∃ pre x post,
          db.listings = pre ++ x :: post ∧ (∀ y ∈ pre, y.id ≠ id) ∧ x.id = id ∧
            ApiSimulation.update db id u =
              (.ok (mergeListing x u), ⟨pre ++ mergeListing x u :: post, db.nextId⟩)) ∧
    (∀ (old : Listing) (u : ListingUpdate), ListingMergeFieldLaws old u) ∧
    (∀ (db : ListingDb) (id : String) (u1 u2 : ListingUpdate),
        (∃ l ∈ db.listings, l.id = id) → (u1.id = none ∨ u1.id = some id) →
        ∃ r1 db1 db2,
          ApiSimulation.update db id u1 = (.ok r1, db1) ∧
            ApiSimulation.update db1 id u2 = (.ok (mergeListing r1 u2), db2)) ∧
    (∀ (db : PropertyDb) (id : String) (u : PropertyUpdate),
        (∃ p ∈ db.properties, p.id = id) →
        ∃ pre x post,
          db.properties = pre ++ x :: post ∧ (∀ y ∈ pre, y.id ≠ id) ∧ x.id = id ∧
            PropertyApiSimulation.update db id u =
              (.ok (mergeProperty x u), ⟨pre ++ mergeProperty x u :: post, db.nextId⟩)) ∧
    (∀ (old : PropertyListing) (u : PropertyUpdate), PropertyMergeFieldLaws old u) ∧
    (∀ (db : PropertyDb) (id : String) (u1 u2 : PropertyUpdate),
        (∃ p ∈ db.properties, p.id = id) → (u1.id = none ∨ u1.id = some id) →
        ∃ r1 db1 db2,
          PropertyApiSimulation.update db id u1 = (.ok r1, db1) ∧
            PropertyApiSimulation.update db1 id u2 = (.ok (mergeProperty r1 u2), db2)) := by
  refine ⟨fun db id u h => listing_update_of_mem u h,
    mergeListing_fieldLaws, ?_,
    fun db id u h => property_update_of_mem u h,
    mergeProperty_fieldLaws, ?_⟩
  · intro db id u1 u2 h hu1
    obtain ⟨pre, x, post, hsplit, hpre, hx, hupd⟩ := listing_update_of_mem u1 h
    have hid1 : (mergeListing x u1).id = id := by
      rcases hu1 with hu1 | hu1 <;> simp [mergeListing, hu1, hx]
    refine ⟨mergeListing x u1, ⟨pre ++ mergeListing x u1 :: post, db.nextId⟩,
      ⟨pre ++ mergeListing (mergeListing x u1) u2 :: post, db.nextId⟩, hupd, ?_⟩
    exact listing_update_eq_of_split hpre hid1 u2 db.nextId
  · intro db id u1 u2 h hu1
    obtain ⟨pre, x, post, hsplit, hpre, hx, hupd⟩ := property_update_of_mem u1 h
    have hid1 : (mergeProperty x u1).id = id := by
      rcases hu1 with hu1 | hu1 <;> simp [mergeProperty, hu1, hx]
    refine ⟨mergeProperty x u1, ⟨pre ++ mergeProperty x u1 :: post, db.nextId⟩,
      ⟨pre ++ mergeProperty (mergeProperty x u1) u2 :: post, db.nextId⟩, hupd, ?_⟩
    exact property_update_eq_of_split hpre hid1 u2 db.nextId

/-- A payload setting only `title`. -/
def titleUpdate1 : ListingUpdate :=
  ⟨none, some "first title", none, none, none, none, none, none, none, none⟩

/-- A second payload setting `title` and `budget`. -/
def titleUpdate2 : ListingUpdate :=
  ⟨none, some "second title", none, none, none, none, none, none, some 999, none⟩

theorem claim2_witness :
    ∃ r1 db1 db2,
      ApiSimulation.update (ApiSimulation.initialDb initialListingData) "1" titleUpdate1 =
        (.ok r1, db1) ∧
        ApiSimulation.update db1 "1" titleUpdate2 = (.ok (mergeListing r1 titleUpdate2), db2) :=
  claim2_update_shallow_merge.2.2.1 (ApiSimulation.initialDb initialListingData) "1"
    titleUpdate1 titleUpdate2 ⟨fixtureListing1, by decide, by decide⟩ (Or.inl (by decide))

/-! ### Create: id assignment -/

theorem listing_create_ok_eq {db : ListingDb} {data : ListingCreateData}
    {r : Listing} {db' : ListingDb}
    (h : ApiSimulation.create db data = (.ok r, db')) :
    r = makeListing (jsIntToString db.nextId) data ∧
      db'.listings = db.listings ++ [r] ∧ db'.nextId = db.nextId + 1 := by
  by_cases h1 : jsIsFalsyString (jsTrim data.title)
  · simp [ApiSimulation.create, h1] at h
  · by_cases h2 : jsIsFalsyString data.deadline
    · simp [ApiSimulation.create, h1, h2] at h
    · simp only [ApiSimulation.create, h1, h2, Bool.false_eq_true, if_false,
        Prod.mk.injEq, Except.ok.injEq] at h
      obtain ⟨hr, hdb⟩ := h
      subst hr
      subst hdb
      exact ⟨rfl, rfl, rfl⟩

theorem property_create_ok_eq {db : PropertyDb} {data : PropertyCreateData}
    {r : PropertyListing} {db' : PropertyDb}
    (h : PropertyApiSimulation.create db data = (.ok r, db')) :
    r = makeProperty (jsIntToString db.nextId) data ∧
      db'.properties = db.properties ++ [r] ∧ db'.nextId = db.nextId + 1 := by
  by_cases h1 : jsIsFalsyString (jsTrim data.title)
  · simp [PropertyApiSimulation.create, h1] at h
  · by_cases h2 : jsIsFalsyString data.area
    · simp [PropertyApiSimulation.create, h1, h2] at h
    · simp only [PropertyApiSimulation.create, h1, h2, Bool.false_eq_true, if_false,
        Prod.mk.injEq, Except.ok.injEq] at h
      obtain ⟨hr, hdb⟩ := h
      subst hr
      subst hdb
      exact ⟨rfl, rfl, rfl⟩

theorem foldr_max_pull (a b : Int) :
    ∀ l : List Int, l.foldr max (max a b) = max a (l.foldr max b) := by
  intro l
  induction l with
  | nil => rfl
  | cons x xs ih =>
    simp only [List.foldr_cons, ih]
    rw [max_left_comm]

theorem foldl_max_eq_foldr_max :
    ∀ (l : List Int) (a : Int), l.foldl max a = l.foldr max a := by
  intro l
  induction l with
  | nil => intro a; rfl
  | cons x xs ih =>
    intro a
    simp only [List.foldl_cons, List.foldr_cons, ih (max a x)]
    rw [max_comm a x, foldr_max_pull]

/-- C3: a successful `create` appends a record whose id is the decimal
string of `nextId` at call time and bumps `nextId` by one; two successive
successful creates therefore assign strictly increasing numeric ids; and
`calculateNextId` is one more than the largest `parseInt(id, 10) || 0`
over the fixture (an unparsable id counting as 0). -/
theorem claim3_create_assigns_incrementing_ids :
    (∀ (db : ListingDb) (data : ListingCreateData) (r : Listing) (db' : ListingDb),
        ApiSimulation.create db data = (.ok r, db') →
        r.id = jsIntToString db.nextId ∧ db'.listings = db.listings ++ [r] ∧
          db'.nextId = db.nextId + 1) ∧
    (∀ (db db1 db2 : ListingDb) (d1 d2 : ListingCreateData) (r1 r2 : Listing),
        0 ≤ db.nextId →
        ApiSimulation.create db d1 = (.ok r1, db1) →
        ApiSimulation.create db1 d2 = (.ok r2, db2) →
        jsParseIntOr0 r1.id < jsParseIntOr0 r2.id) ∧
    (∀ fixture : List Listing,
        ApiSimulation.calculateNextId fixture =
          (fixture.map (fun l => jsParseIntOr0 l.id)).foldr max 0 + 1) ∧
    (∀ (db : PropertyDb) (data : PropertyCreateData) (r : PropertyListing)
        (db' : PropertyDb),
        PropertyApiSimulation.create db data = (.ok r, db') →
        r.id = jsIntToString db.nextId ∧ db'.properties = db.properties ++ [r] ∧
          db'.nextId = db.nextId + 1) ∧
    (∀ (db db1 db2 : PropertyDb) (d1 d2 : PropertyCreateData) (r1 r2 : PropertyListing),
        0 ≤ db.nextId →
        PropertyApiSimulation.create db d1 = (.ok r1, db1) →
        PropertyApiSimulation.create db1 d2 = (.ok r2, db2) →
        jsParseIntOr0 r1.id < jsParseIntOr0 r2.id) ∧
    (∀ fixture : List PropertyListing,
        PropertyApiSimulation.calculateNextId fixture =
          (fixture.map (fun p => jsParseIntOr0 p.id)).foldr max 0 + 1) := by
  refine ⟨?_, ?_, ?_, ?_, ?_, ?_⟩
  · intro db data r db' h
    obtain ⟨hr, hls, hnext⟩ := listing_create_ok_eq h
    exact ⟨by rw [hr]; rfl, hls, hnext⟩
  · intro db db1 db2 d1 d2 r1 r2 hpos h1 h2
    obtain ⟨hr1, _, hnext1⟩ := listing_create_ok_eq h1
    obtain ⟨hr2, _, _⟩ := listing_create_ok_eq h2
    have e1 : jsParseIntOr0 r1.id = db.nextId := by
      rw [hr1]
      exact jsParseIntOr0_jsIntToString hpos
    have e2 : jsParseIntOr0 r2.id = db1.nextId := by
      rw [hr2]
      exact jsParseIntOr0_jsIntToString (by omega)
    omega
  · intro fixture
    unfold ApiSimulation.calculateNextId
    have := List.foldl_map (fun l : Listing => jsParseIntOr0 l.id)
      (fun (m x : Int) => max m x) fixture 0
    rw [show (fixture.foldl (fun m l => max m (jsParseIntOr0 l.id)) 0)
        = (fixture.map (fun l => jsParseIntOr0 l.id)).foldl max 0 from (this).symm,
      foldl_max_eq_foldr_max]
  · intro db data r db' h
    obtain ⟨hr, hls, hnext⟩ := property_create_ok_eq h
    exact ⟨by rw [hr]; rfl, hls, hnext⟩
  · intro db db1 db2 d1 d2 r1 r2 hpos h1 h2
    obtain ⟨hr1, _, hnext1⟩ := property_create_ok_eq h1
    obtain ⟨hr2, _, _⟩ := property_create_ok_eq h2
    have e1 : jsParseIntOr0 r1.id = db.nextId := by
      rw [hr1]
      exact jsParseIntOr0_jsIntToString hpos
    have e2 : jsParseIntOr0 r2.id = db1.nextId := by
      rw [hr2]
      exact jsParseIntOr0_jsIntToString (by omega)
    omega
  · intro fixture
    unfold PropertyApiSimulation.calculateNextId
    have := List.foldl_map (fun p : PropertyListing => jsParseIntOr0 p.id)
      (fun (m x : Int) => max m x) fixture 0
    rw [show (fixture.foldl (fun m p => max m (jsParseIntOr0 p.id)) 0)
        = (fixture.map (fun p => jsParseIntOr0 p.id)).foldl max 0 from (this).symm,
      foldl_max_eq_foldr_max]

/-- A second well-formed create payload for listings. -/
def sampleListingCreate2 : ListingCreateData :=
  ⟨"Another task", "d4", sampleOwner, "Dev", "API", "2025-01-04", "2025-05-01", 80, .todo⟩

theorem claim3_witness :
    jsParseIntOr0 (makeListing "3" sampleListingCreate).id <
      jsParseIntOr0 (makeListing "4" sampleListingCreate2).id :=
  claim3_create_assigns_incrementing_ids.2.1
    (ApiSimulation.initialDb initialListingData)
    ⟨initialListingData ++ [makeListing "3" sampleListingCreate], 4⟩
    ⟨(initialListingData ++ [makeListing "3" sampleListingCreate]) ++
        [makeListing "4" sampleListingCreate2], 5⟩
    sampleListingCreate sampleListingCreate2
    (makeListing "3" sampleListingCreate) (makeListing "4" sampleListingCreate2)
    (by decide) (by rfl) (by rfl)

/-! ### Error behaviour of the mock APIs -/

theorem jsIsFalsyString_iff {s : String} : jsIsFalsyString s = true ↔ s = "" := by
  cases s with
  | mk l =>
    simp only [jsIsFalsyString, List.isEmpty_iff]
    exact ⟨fun h => by rw [h], fun h => congrArg String.data h⟩

theorem listing_getById_spec (db : ListingDb) (id : String) :
    ((∃ e, (ApiSimulation.getById db id).1 = .error e) ↔ ∀ l ∈ db.listings, l.id ≠ id) ∧
    (∀ e, (ApiSimulation.getById db id).1 = .error e →
        e = "Listing with ID " ++ id ++ " not found") ∧
    (ApiSimulation.getById db id).2 = db := by
  unfold ApiSimulation.getById
  cases hfind : db.listings.find? (fun l => l.id == id) with
  | none =>
    rw [List.find?_eq_none] at hfind
    refine ⟨⟨fun _ l hl => by simpa using hfind l hl, fun _ => ⟨_, rfl⟩⟩, ?_, rfl⟩
    intro e he
    simp only [Except.error.injEq] at he
    exact he.symm
  | some l =>
    have hmem := List.mem_of_find?_eq_some hfind
    have hid : l.id = id := by
      have := List.find?_some hfind
      simpa using this
    refine ⟨⟨?_, fun hall => absurd hid (hall l hmem)⟩, ?_, rfl⟩
    · rintro ⟨e, he⟩
      simp at he
    · intro e he
      simp at he

theorem property_getById_spec (db : PropertyDb) (id : String) :
    ((∃ e, (PropertyApiSimulation.getById db id).1 = .error e) ↔
      ∀ p ∈ db.properties, p.id ≠ id) ∧
    (∀ e, (PropertyApiSimulation.getById db id).1 = .error e →
        e = "Property with ID " ++ id ++ " not found") ∧
    (PropertyApiSimulation.getById db id).2 = db := by
  unfold PropertyApiSimulation.getById
  cases hfind : db.properties.find? (fun p => p.id == id) with
  | none =>
    rw [List.find?_eq_none] at hfind
    refine ⟨⟨fun _ p hp => by simpa using hfind p hp, fun _ => ⟨_, rfl⟩⟩, ?_, rfl⟩
    intro e he
    simp only [Except.error.injEq] at he
    exact he.symm
  | some p =>
    have hmem := List.mem_of_find?_eq_some hfind
    have hid : p.id = id := by
      have := List.find?_some hfind
      simpa using this
    refine ⟨⟨?_, fun hall => absurd hid (hall p hmem)⟩, ?_, rfl⟩
    · rintro ⟨e, he⟩
      simp at he
    · intro e he
      simp at he

theorem listing_update_spec (db : ListingDb) (id : String) (u : ListingUpdate) :
    ((∃ e, (ApiSimulation.update db id u).1 = .error e) ↔ ∀ l ∈ db.listings, l.id ≠ id) ∧
    (∀ e, (ApiSimulation.update db id u).1 = .error e →
        e = "Listing with ID " ++ id ++ " not found" ∧
          (ApiSimulation.update db id u).2 = db) := by
  unfold ApiSimulation.update
  cases hfind : updateFirstBy (fun l => l.id == id) (fun l => mergeListing l u) db.listings with
  | none =>
    rw [updateFirstBy_eq_none_iff] at hfind
    refine ⟨⟨fun _ l hl => by simpa using hfind l hl, fun _ => ⟨_, rfl⟩⟩, ?_⟩
    intro e he
    simp only [Except.error.injEq] at he
    exact ⟨he.symm, rfl⟩
  | some v =>
    obtain ⟨ls, r⟩ := v
    obtain ⟨pre, x, post, hsplit, hpre, hx, _, _⟩ := updateFirstBy_eq_some hfind
    have hxid : x.id = id := by simpa using hx
    have hxmem : x ∈ db.listings := by
      rw [hsplit]
      exact List.mem_append.2 (Or.inr (List.mem_cons_self _ _))
    refine ⟨⟨?_, fun hall => absurd hxid (hall x hxmem)⟩, ?_⟩
    · rintro ⟨e, he⟩
      simp at he
    · intro e he
      simp at he

theorem property_update_spec (db : PropertyDb) (id : String) (u : PropertyUpdate) :
    ((∃ e, (PropertyApiSimulation.update db id u).1 = .error e) ↔
      ∀ p ∈ db.properties, p.id ≠ id) ∧
    (∀ e, (PropertyApiSimulation.update db id u).1 = .error e →
        e = "Property with ID " ++ id ++ " not found" ∧
          (PropertyApiSimulation.update db id u).2 = db) := by
  unfold PropertyApiSimulation.update
  cases hfind : updateFirstBy (fun p => p.id == id) (fun p => mergeProperty p u) db.properties with
  | none =>
    rw [updateFirstBy_eq_none_iff] at hfind
    refine ⟨⟨fun _ p hp => by simpa using hfind p hp, fun _ => ⟨_, rfl⟩⟩, ?_⟩
    intro e he
    simp only [Except.error.injEq] at he
    exact ⟨he.symm, rfl⟩
  | some v =>
    obtain ⟨ps, r⟩ := v
    obtain ⟨pre, x, post, hsplit, hpre, hx, _, _⟩ := updateFirstBy_eq_some hfind
    have hxid : x.id = id := by simpa using hx
    have hxmem : x ∈ db.properties := by
      rw [hsplit]
      exact List.mem_append.2 (Or.inr (List.mem_cons_self _ _))
    refine ⟨⟨?_, fun hall => absurd hxid (hall x hxmem)⟩, ?_⟩
    · rintro ⟨e, he⟩
      simp at he
    · intro e he
      simp at he

theorem listing_delete_spec (db : ListingDb) (id : String) :
    ((∃ e, (ApiSimulation.delete db id).1 = .error e) ↔ ∀ l ∈ db.listings, l.id ≠ id) ∧
    (∀ e, (ApiSimulation.delete db id).1 = .error e →
        e = "Listing with ID " ++ id ++ " not found" ∧
          (ApiSimulation.delete db id).2 = db) := by
  unfold ApiSimulation.delete
  cases hfind : deleteFirstBy (fun l => l.id == id) db.listings with
  | none =>
    rw [deleteFirstBy_eq_none_iff] at hfind
    refine ⟨⟨fun _ l hl => by simpa using hfind l hl, fun _ => ⟨_, rfl⟩⟩, ?_⟩
    intro e he
    simp only [Except.error.injEq] at he
    exact ⟨he.symm, rfl⟩
  | some ls =>
    obtain ⟨pre, x, post, hsplit, hpre, hx, _⟩ := deleteFirstBy_eq_some hfind
    have hxid : x.id = id := by simpa using hx
    have hxmem : x ∈ db.listings := by
      rw [hsplit]
      exact List.mem_append.2 (Or.inr (List.mem_cons_self _ _))
    refine ⟨⟨?_, fun hall => absurd hxid (hall x hxmem)⟩, ?_⟩
    · rintro ⟨e, he⟩
      simp at he
    · intro e he
      simp at he

theorem property_delete_spec (db : PropertyDb) (id : String) :
    ((∃ e, (PropertyApiSimulation.delete db id).1 = .error e) ↔
      ∀ p ∈ db.properties, p.id ≠ id) ∧
    (∀ e, (PropertyApiSimulation.delete db id).1 = .error e →
        e = "Property with ID " ++ id ++ " not found" ∧
          (PropertyApiSimulation.delete db id).2 = db) := by
  unfold PropertyApiSimulation.delete
  cases hfind : deleteFirstBy (fun p => p.id == id) db.properties with
  | none =>
    rw [deleteFirstBy_eq_none_iff] at hfind
    refine ⟨⟨fun _ p hp => by simpa using hfind p hp, fun _ => ⟨_, rfl⟩⟩, ?_⟩
    intro e he
    simp only [Except.error.injEq] at he
    exact ⟨he.symm, rfl⟩
  | some ps =>
    obtain ⟨pre, x, post, hsplit, hpre, hx, _⟩ := deleteFirstBy_eq_some hfind
    have hxid : x.id = id := by simpa using hx
    have hxmem : x ∈ db.properties := by
      rw [hsplit]
      exact List.mem_append.2 (Or.inr (List.mem_cons_self _ _))
    refine ⟨⟨?_, fun hall => absurd hxid (hall x hxmem)⟩, ?_⟩
    · rintro ⟨e, he⟩
      simp at he
    · intro e he
      simp at he

theorem listing_create_spec (db : ListingDb) (data : ListingCreateData) :
    ((∃ e, (ApiSimulation.create db data).1 = .error e) ↔
        (jsTrim data.title = "" ∨ data.deadline = "")) ∧
    (∀ e, (ApiSimulation.create db data).1 = .error e →
        (e = "Listing title is required" ∨ e = "Listing deadline is required") ∧
          (ApiSimulation.create db data).2 = db) := by
  by_cases h1 : jsIsFalsyString (jsTrim data.title)
  · have ht : jsTrim data.title = "" := jsIsFalsyString_iff.1 h1
    refine ⟨⟨fun _ => Or.inl ht,
      fun _ => ⟨"Listing title is required", by simp [ApiSimulation.create, h1]⟩⟩, ?_⟩
    intro e he
    simp only [ApiSimulation.create, h1, if_true] at he ⊢
    simp only [Except.error.injEq] at he
    exact ⟨Or.inl he.symm, trivial⟩
  · have ht : ¬ jsTrim data.title = "" := fun hc => h1 (jsIsFalsyString_iff.2 hc)
    by_cases h2 : jsIsFalsyString data.deadline
    · have hd : data.deadline = "" := jsIsFalsyString_iff.1 h2
      refine ⟨⟨fun _ => Or.inr hd,
        fun _ => ⟨"Listing deadline is required",
          by simp [ApiSimulation.create, h1, h2]⟩⟩, ?_⟩
      intro e he
      simp only [ApiSimulation.create, h1, h2, Bool.false_eq_true, if_false, if_true] at he ⊢
      simp only [Except.error.injEq] at he
      exact ⟨Or.inr he.symm, trivial⟩
    · have hd : ¬ data.deadline = "" := fun hc => h2 (jsIsFalsyString_iff.2 hc)
      constructor
      · constructor
        · rintro ⟨e, he⟩
          simp [ApiSimulation.create, h1, h2] at he
        · intro hor
          rcases hor with hor | hor
          · exact absurd hor ht
          · exact absurd hor hd
      · intro e he
        simp [ApiSimulation.create, h1, h2] at he

theorem property_create_spec (db : PropertyDb) (data : PropertyCreateData) :
    ((∃ e, (PropertyApiSimulation.create db data).1 = .error e) ↔
        (jsTrim data.title = "" ∨ data.area = "")) ∧
    (∀ e, (PropertyApiSimulation.create db data).1 = .error e →
        (e = "Property title is required" ∨ e = "Property area is required") ∧
          (PropertyApiSimulation.create db data).2 = db) := by
  by_cases h1 : jsIsFalsyString (jsTrim data.title)
  · have ht : jsTrim data.title = "" := jsIsFalsyString_iff.1 h1
    refine ⟨⟨fun _ => Or.inl ht,
      fun _ => ⟨"Property title is required",
        by simp [PropertyApiSimulation.create, h1]⟩⟩, ?_⟩
    intro e he
    simp only [PropertyApiSimulation.create, h1, if_true] at he ⊢
    simp only [Except.error.injEq] at he
    exact ⟨Or.inl he.symm, trivial⟩
  · have ht : ¬ jsTrim data.title = "" := fun hc => h1 (jsIsFalsyString_iff.2 hc)
    by_cases h2 : jsIsFalsyString data.area
    · have hd : data.area = "" := jsIsFalsyString_iff.1 h2
      refine ⟨⟨fun _ => Or.inr hd,
        fun _ => ⟨"Property area is required",
          by simp [PropertyApiSimulation.create, h1, h2]⟩⟩, ?_⟩
      intro e he
      simp only [PropertyApiSimulation.create, h1, h2, Bool.false_eq_true,
        if_false, if_true] at he ⊢
      simp only [Except.error.injEq] at he
      exact ⟨Or.inr he.symm, trivial⟩
    · have hd : ¬ data.area = "" := fun hc => h2 (jsIsFalsyString_iff.2 hc)
      constructor
      · constructor
        · rintro ⟨e, he⟩
          simp [PropertyApiSimulation.create, h1, h2] at he
        · intro hor
          rcases hor with hor | hor
          · exact absurd hor ht
          · exact absurd hor hd
      · intro e he
        simp [PropertyApiSimulation.create, h1, h2] at he

/-- C4: the mock API operations raise exactly when the spec's error
conditions hold, with the stated messages, and raise atomically.
`getById`, `update` and `delete` throw the not-found message for the given
id exactly when no record carries that id; `create` throws exactly when
the trimmed title is empty or the deadline (listings) / area (properties)
is missing; in every throwing case the returned state is the unchanged
input state (for `getById` the state is unchanged in all cases). -/
theorem claim4_error_conditions :
    (∀ (db : ListingDb) (id : String),
      ((∃ e, (ApiSimulation.getById db id).1 = .error e) ↔
        ∀ l ∈ db.listings, l.id ≠ id) ∧
      (∀ e, (ApiSimulation.getById db id).1 = .error e →
        e = "Listing with ID " ++ id ++ " not found") ∧
      (ApiSimulation.getById db id).2 = db) ∧
    (∀ (db : ListingDb) (id : String) (u : ListingUpdate),
      ((∃ e, (ApiSimulation.update db id u).1 = .error e) ↔
        ∀ l ∈ db.listings, l.id ≠ id) ∧
      (∀ e, (ApiSimulation.update db id u).1 = .error e →
        e = "Listing with ID " ++ id ++ " not found" ∧
          (ApiSimulation.update db id u).2 = db)) ∧
    (∀ (db : ListingDb) (id : String),
      ((∃ e, (ApiSimulation.delete db id).1 = .error e) ↔
        ∀ l ∈ db.listings, l.id ≠ id) ∧
      (∀ e, (ApiSimulation.delete db id).1 = .error e →
        e = "Listing with ID " ++ id ++ " not found" ∧
          (ApiSimulation.delete db id).2 = db)) ∧
    (∀ (db : ListingDb) (data : ListingCreateData),
      ((∃ e, (ApiSimulation.create db data).1 = .error e) ↔
        (jsTrim data.title = "" ∨ data.deadline = "")) ∧
      (∀ e, (ApiSimulation.create db data).1 = .error e →
        (e = "Listing title is required" ∨ e = "Listing deadline is required") ∧
          (ApiSimulation.create db data).2 = db)) ∧
    (∀ (db : PropertyDb) (id : String),
      ((∃ e, (PropertyApiSimulation.getById db id).1 = .error e) ↔
        ∀ p ∈ db.properties, p.id ≠ id) ∧
      (∀ e, (PropertyApiSimulation.getById db id).1 = .error e →
        e = "Property with ID " ++ id ++ " not found") ∧
      (PropertyApiSimulation.getById db id).2 = db) ∧
    (∀ (db : PropertyDb) (id : String) (u : PropertyUpdate),
      ((∃ e, (PropertyApiSimulation.update db id u).1 = .error e) ↔
        ∀ p ∈ db.properties, p.id ≠ id) ∧
      (∀ e, (PropertyApiSimulation.update db id u).1 = .error e →
        e = "Property with ID " ++ id ++ " not found" ∧
          (PropertyApiSimulation.update db id u).2 = db)) ∧
    (∀ (db : PropertyDb) (id : String),
      ((∃ e, (PropertyApiSimulation.delete db id).1 = .error e) ↔
        ∀ p ∈ db.properties, p.id ≠ id) ∧
      (∀ e, (PropertyApiSimulation.delete db id).1 = .error e →
        e = "Property with ID " ++ id ++ " not found" ∧
          (PropertyApiSimulation.delete db id).2 = db)) ∧
    (∀ (db : PropertyDb) (data : PropertyCreateData),
      ((∃ e, (PropertyApiSimulation.create db data).1 = .error e) ↔
        (jsTrim data.title = "" ∨ data.area = "")) ∧
      (∀ e, (PropertyApiSimulation.create db data).1 = .error e →
        (e = "Property title is required" ∨ e = "Property area is required") ∧
          (PropertyApiSimulation.create db data).2 = db)) :=
  ⟨listing_getById_spec, listing_update_spec, listing_delete_spec, listing_create_spec,
   property_getById_spec, property_update_spec, property_delete_spec, property_create_spec⟩

theorem claim4_witness :
    ∃ e, (ApiSimulation.update (ApiSimulation.initialDb initialListingData)
      "99" titleUpdate1).1 = .error e :=
  ((claim4_error_conditions.2.1 (ApiSimulation.initialDb initialListingData)
    "99" titleUpdate1).1).2 (by decide)

/-! ### Delete is an array splice -/

theorem listing_delete_of_mem {db : ListingDb} {id : String}
    (h : ∃ l ∈ db.listings, l.id = id) :
    ∃ pre x post, db.listings = pre ++ x :: post ∧ (∀ y ∈ pre, y.id ≠ id) ∧ x.id = id ∧
      ApiSimulation.delete db id = (.ok (), ⟨pre ++ post, db.nextId⟩) := by
  cases hfind : deleteFirstBy (fun l => l.id == id) db.listings with
  | none =>
    rw [deleteFirstBy_eq_none_iff] at hfind
    obtain ⟨l, hl, hlid⟩ := h
    have := hfind l hl
    rw [hlid] at this
    simp at this
  | some ls =>
    obtain ⟨pre, x, post, hsplit, hpre, hx, hys⟩ := deleteFirstBy_eq_some hfind
    refine ⟨pre, x, post, hsplit, ?_, by simpa using hx, ?_⟩
    · intro y hy
      have := hpre y hy
      simpa using this
    · rw [ApiSimulation.delete, hfind, hys]

theorem property_delete_of_mem {db : PropertyDb} {id : String}
    (h : ∃ p ∈ db.properties, p.id = id) :
    ∃ pre x post, db.properties = pre ++ x :: post ∧ (∀ y ∈ pre, y.id ≠ id) ∧ x.id = id ∧
      PropertyApiSimulation.delete db id = (.ok (), ⟨pre ++ post, db.nextId⟩) := by
  cases hfind : deleteFirstBy (fun p => p.id == id) db.properties with
  | none =>
    rw [deleteFirstBy_eq_none_iff] at hfind
    obtain ⟨p, hp, hpid⟩ := h
    have := hfind p hp
    rw [hpid] at this
    simp at this
  | some ps =>
    obtain ⟨pre, x, post, hsplit, hpre, hx, hys⟩ := deleteFirstBy_eq_some hfind
    refine ⟨pre, x, post, hsplit, ?_, by simpa using hx, ?_⟩
    · intro y hy
      have := hpre y hy
      simpa using this
    · rw [PropertyApiSimulation.delete, hfind, hys]

/-- C8: for an id present in the collection, `delete` removes exactly the
first record with that id: the rest of the array keeps its contents and
relative order, the length drops by exactly one, and `nextId` is
unchanged. -/
theorem claim8_delete_is_splice :
    (∀ (db : ListingDb) (id : String),
      (∃ l ∈ db.listings, l.id = id) →
      ∃ pre x post, db.listings = pre ++ x :: post ∧ (∀ y ∈ pre, y.id ≠ id) ∧ x.id = id ∧
        ApiSimulation.delete db id = (.ok (), ⟨pre ++ post, db.nextId⟩) ∧
        (pre ++ post).length + 1 = db.listings.length) ∧
    (∀ (db : PropertyDb) (id : String),
      (∃ p ∈ db.properties, p.id = id) →
      ∃ pre x post, db.properties = pre ++ x :: post ∧ (∀ y ∈ pre, y.id ≠ id) ∧ x.id = id ∧
        PropertyApiSimulation.delete db id = (.ok (), ⟨pre ++ post, db.nextId⟩) ∧
        (pre ++ post).length + 1 = db.properties.length) := by
  constructor
  · intro db id h
    obtain ⟨pre, x, post, hsplit, hpre, hx, hdel⟩ := listing_delete_of_mem h
    exact ⟨pre, x, post, hsplit, hpre, hx, hdel, by rw [hsplit]; simp; omega⟩
  · intro db id h
    obtain ⟨pre, x, post, hsplit, hpre, hx, hdel⟩ := property_delete_of_mem h
    exact ⟨pre, x, post, hsplit, hpre, hx, hdel, by rw [hsplit]; simp; omega⟩

theorem claim8_witness :
    ∃ pre x post,
      (ApiSimulation.initialDb initialListingData).listings = pre ++ x :: post ∧
      (∀ y ∈ pre, y.id ≠ "2") ∧ x.id = "2" ∧
      ApiSimulation.delete (ApiSimulation.initialDb initialListingData) "2" =
        (.ok (), ⟨pre ++ post, (ApiSimulation.initialDb initialListingData).nextId⟩) ∧
      (pre ++ post).length + 1 =
        (ApiSimulation.initialDb initialListingData).listings.length :=
  claim8_delete_is_splice.1 (ApiSimulation.initialDb initialListingData) "2"
    ⟨fixtureListing2, by decide, by decide⟩

/-! ### Filtering (`src/stores/propertyStore.ts`, `stores/listingStore.ts`) -/

/-- A `{ min, max }` pair where `null` leaves that side unbounded. -/
structure NumRange where
  min : Option Int
  max : Option Int
deriving DecidableEq

/-- The `PropertyFilters` record (types, subtypes, furnishing, and the
three numeric ranges; areas and titles are passed separately). -/
structure PropertyFilters where
  types : List String
  subtypes : List String
  furnishing : List Furnishing
  bedroomRange : NumRange
  rentPriceRange : NumRange
  salePriceRange : NumRange
deriving DecidableEq

/-- Shared body of `matchesBedroomRange` / `matchesRentPriceRange` /
`matchesSalePriceRange` / `matchesBudgetRange`: the two early
`return false` branches become a boolean conjunction. -/
def jsMatchesRange (v : Int) (r : NumRange) : Bool :=
  !(r.min.any (fun m => decide (v < m))) && !(r.max.any (fun m => decide (v > m)))

/-- `matchesBedroomRange`. -/
def matchesBedroomRange (property : PropertyListing) (bedroomRange : NumRange) : Bool :=
  jsMatchesRange property.bedroom bedroomRange

/-- `matchesRentPriceRange`. -/
def matchesRentPriceRange (property : PropertyListing) (rentPriceRange : NumRange) : Bool :=
  jsMatchesRange property.rentPrice rentPriceRange

/-- `matchesSalePriceRange`. -/
def matchesSalePriceRange (property : PropertyListing) (salePriceRange : NumRange) : Bool :=
  jsMatchesRange property.salePrice salePriceRange

/-- `applyFiltersToProperties`: conjunction of the eight per-attribute
checks, an empty selection list matching everything. -/
def applyFiltersToProperties (properties : List PropertyListing)
    (filters : PropertyFilters) (areas : List String) (titles : List String) :
    List PropertyListing :=
  properties.filter (fun property =>
    (filters.types.isEmpty || filters.types.contains property.type) &&
    (filters.subtypes.isEmpty || filters.subtypes.contains property.subtype) &&
    (areas.isEmpty || areas.contains property.area) &&
    (titles.isEmpty || titles.contains property.title) &&
    (filters.furnishing.isEmpty || filters.furnishing.contains property.furnishing) &&
    matchesBedroomRange property filters.bedroomRange &&
    matchesRentPriceRange property filters.rentPriceRange &&
    matchesSalePriceRange property filters.salePriceRange)

/-- Spec reading of the filter: the conjunction of the attribute
predicates, where an empty selection list matches every property and a
`null` bound leaves that side unbounded. -/
def PropertyMatchesSpec (filters : PropertyFilters) (areas titles : List String)
    (p : PropertyListing) : Prop :=
  (filters.types ≠ [] → p.type ∈ filters.types) ∧
  (filters.subtypes ≠ [] → p.subtype ∈ filters.subtypes) ∧
  (areas ≠ [] → p.area ∈ areas) ∧
  (titles ≠ [] → p.title ∈ titles) ∧
  (filters.furnishing ≠ [] → p.furnishing ∈ filters.furnishing) ∧
  (∀ m ∈ filters.bedroomRange.min, m ≤ p.bedroom) ∧
  (∀ m ∈ filters.bedroomRange.max, p.bedroom ≤ m) ∧
  (∀ m ∈ filters.rentPriceRange.min, m ≤ p.rentPrice) ∧
  (∀ m ∈ filters.rentPriceRange.max, p.rentPrice ≤ m) ∧
  (∀ m ∈ filters.salePriceRange.min, m ≤ p.salePrice) ∧
  (∀ m ∈ filters.salePriceRange.max, p.salePrice ≤ m)

instance (filters : PropertyFilters) (areas titles : List String) (p : PropertyListing) :
    Decidable (PropertyMatchesSpec filters areas titles p) := by
  unfold PropertyMatchesSpec
  infer_instance

theorem jsMatchesRange_iff (v : Int) (r : NumRange) :
    jsMatchesRange v r = true ↔ (∀ m ∈ r.min, m ≤ v) ∧ (∀ m ∈ r.max, v ≤ m) := by
  cases r with
  | mk mn mx =>
    cases mn <;> cases mx <;>
      simp [jsMatchesRange, Option.any]

theorem selection_list_iff {α : Type} [DecidableEq α] (l : List α) (x : α) :
    (l.isEmpty || l.contains x) = true ↔ (l ≠ [] → x ∈ l) := by
  simp [or_iff_not_imp_left, List.isEmpty_iff]

theorem property_code_matches_iff (filters : PropertyFilters)
    (areas titles : List String) (p : PropertyListing) :
    ((filters.types.isEmpty || filters.types.contains p.type) &&
      (filters.subtypes.isEmpty || filters.subtypes.contains p.subtype) &&
      (areas.isEmpty || areas.contains p.area) &&
      (titles.isEmpty || titles.contains p.title) &&
      (filters.furnishing.isEmpty || filters.furnishing.contains p.furnishing) &&
      matchesBedroomRange p filters.bedroomRange &&
      matchesRentPriceRange p filters.rentPriceRange &&
      matchesSalePriceRange p filters.salePriceRange) = true ↔
      PropertyMatchesSpec filters areas titles p := by
  unfold PropertyMatchesSpec matchesBedroomRange matchesRentPriceRange matchesSalePriceRange
  simp only [Bool.and_eq_true, selection_list_iff, jsMatchesRange_iff]
  tauto

/-- C5: `applyFiltersToProperties` returns the order-preserving
subsequence of exactly those properties satisfying the conjunction of all
attribute predicates; empty selection lists and `null` bounds are
non-constraining, and the result is a sublist (hence subset) of the
input. -/
theorem claim5_filter_conjunction (properties : List PropertyListing)
    (filters : PropertyFilters) (areas titles : List String) :
    applyFiltersToProperties properties filters areas titles =
      properties.filter (fun p => decide (PropertyMatchesSpec filters areas titles p)) ∧
    (applyFiltersToProperties properties filters areas titles).Sublist properties ∧
    (∀ p, p ∈ applyFiltersToProperties properties filters areas titles ↔
      p ∈ properties ∧ PropertyMatchesSpec filters areas titles p) := by
  have hpoint : ∀ p ∈ properties,
      ((filters.types.isEmpty || filters.types.contains p.type) &&
        (filters.subtypes.isEmpty || filters.subtypes.contains p.subtype) &&
        (areas.isEmpty || areas.contains p.area) &&
        (titles.isEmpty || titles.contains p.title) &&
        (filters.furnishing.isEmpty || filters.furnishing.contains p.furnishing) &&
        matchesBedroomRange p filters.bedroomRange &&
        matchesRentPriceRange p filters.rentPriceRange &&
        matchesSalePriceRange p filters.salePriceRange) =
        decide (PropertyMatchesSpec filters areas titles p) := by
    intro p _
    rw [Bool.eq_iff_iff]
    simp only [decide_eq_true_eq]
    exact property_code_matches_iff filters areas titles p
  have heq : applyFiltersToProperties properties filters areas titles =
      properties.filter (fun p => decide (PropertyMatchesSpec filters areas titles p)) := by
    unfold applyFiltersToProperties
    exact List.filter_congr hpoint
  refine ⟨heq, ?_, ?_⟩
  · rw [heq]
    exact List.filter_sublist properties
  · intro p
    rw [heq, List.mem_filter]
    simp

/-- A concrete filter selection. -/
def sampleFilters : PropertyFilters :=
  ⟨["Residential"], [], [.fully, .partially], ⟨some 2, none⟩, ⟨none, some 2000⟩, ⟨none, none⟩⟩

theorem claim5_witness :
    applyFiltersToProperties initialPropertyData sampleFilters ["Sunway"] [] =
      initialPropertyData.filter
        (fun p => decide (PropertyMatchesSpec sampleFilters ["Sunway"] [] p)) :=
  (claim5_filter_conjunction initialPropertyData sampleFilters ["Sunway"] []).1

/-! ### Sorting

`Array.prototype.sort` with comparator `a - b` is a stable sort placing
`a` before `b` whenever the comparator is `≤ 0`; it is modelled by
`List.mergeSort` (stable) with the boolean relation `key a ≤ key b`.  A
comparator returning NaN (an unparsable `built-up` string) is treated by
the JS sort as `0`, i.e. as "equal"; the corresponding comparator model
returns `true` (keep current order) in that case.  In this pure embedding
the input list is never mutated, matching the `[...properties]` copy the
source takes before sorting in place. -/

/-- `PropertySortOption`. -/
inductive PropertySortOption where
  | rentPriceAsc
  | rentPriceDesc
  | salePriceAsc
  | salePriceDesc
  | bedroomAsc
  | bedroomDesc
  | builtUpAsc
  | builtUpDesc
deriving DecidableEq

/-- `s.replace(/,/g, "")`. -/
def stripCommas (s : String) : String := ⟨s.data.filter (fun c => !(c == ','))⟩

/-- `parseInt(p["built-up"].replace(/,/g, ""))`; `none` is NaN. -/
def builtUpVal (p : PropertyListing) : Option Int := jsParseInt (stripCommas p.builtUp)

/-- The built-up sort key, with unparsable values reading as 0. -/
def builtUpKey (p : PropertyListing) : Int := (builtUpVal p).getD 0

/-- Comparator for `built-up-asc`; NaN comparisons keep the order. -/
def builtUpLeAsc (a b : PropertyListing) : Bool :=
  match builtUpVal a, builtUpVal b with
  | some x, some y => decide (x ≤ y)
  | _, _ => true

/-- Comparator for `built-up-desc`; NaN comparisons keep the order. -/
def builtUpLeDesc (a b : PropertyListing) : Bool :=
  match builtUpVal a, builtUpVal b with
  | some x, some y => decide (y ≤ x)
  | _, _ => true

/-- `sortProperties`. -/
def sortProperties (properties : List PropertyListing) (sortBy : PropertySortOption) :
    List PropertyListing :=
  match sortBy with
  | .rentPriceAsc => properties.mergeSort (fun a b => decide (a.rentPrice ≤ b.rentPrice))
  | .rentPriceDesc => properties.mergeSort (fun a b => decide (b.rentPrice ≤ a.rentPrice))
  | .salePriceAsc => properties.mergeSort (fun a b => decide (a.salePrice ≤ b.salePrice))
  | .salePriceDesc => properties.mergeSort (fun a b => decide (b.salePrice ≤ a.salePrice))
  | .bedroomAsc => properties.mergeSort (fun a b => decide (a.bedroom ≤ b.bedroom))
  | .bedroomDesc => properties.mergeSort (fun a b => decide (b.bedroom ≤ a.bedroom))
  | .builtUpAsc => properties.mergeSort builtUpLeAsc
  | .builtUpDesc => properties.mergeSort builtUpLeDesc

/-- `ListingSortOption`. -/
inductive ListingSortOption where
  | deadlineAsc
  | deadlineDesc
  | budgetAsc
  | budgetDesc
  | dateCreatedAsc
  | dateCreatedDesc
deriving DecidableEq

/-- `sortListings`; `getTime` abstracts `new Date(s).getTime()`. -/
def sortListings (getTime : String → Int) (listings : List Listing)
    (sortOption : ListingSortOption) : List Listing :=
  match sortOption with
  | .deadlineAsc =>
    listings.mergeSort (fun a b => decide (getTime a.deadline ≤ getTime b.deadline))
  | .deadlineDesc =>
    listings.mergeSort (fun a b => decide (getTime b.deadline ≤ getTime a.deadline))
  | .budgetAsc => listings.mergeSort (fun a b => decide (a.budget ≤ b.budget))
  | .budgetDesc => listings.mergeSort (fun a b => decide (b.budget ≤ a.budget))
  | .dateCreatedAsc =>
    listings.mergeSort (fun a b => decide (getTime a.dateCreated ≤ getTime b.dateCreated))
  | .dateCreatedDesc =>
    listings.mergeSort (fun a b => decide (getTime b.dateCreated ≤ getTime a.dateCreated))

/-- Non-decreasing in `key`. -/
def PairwiseLeBy (key : α → Int) (l : List α) : Prop :=
  l.Pairwise (fun a b => key a ≤ key b)

/-- Non-increasing in `key`. -/
def PairwiseGeBy (key : α → Int) (l : List α) : Prop :=
  l.Pairwise (fun a b => key b ≤ key a)

theorem pairwiseLe_mergeSort (key : α → Int) (l : List α) :
    PairwiseLeBy key (l.mergeSort (fun a b => decide (key a ≤ key b))) := by
  have h : (l.mergeSort (fun a b => decide (key a ≤ key b))).Pairwise
      (fun a b => decide (key a ≤ key b) = true) :=
    List.sorted_mergeSort
      (fun a b c h1 h2 => by
        simp only [decide_eq_true_eq] at h1 h2 ⊢
        omega)
      (fun a b => by
        simp only [Bool.or_eq_true, decide_eq_true_eq]
        omega)
      l
  exact h.imp (fun hab => by simpa using hab)

theorem pairwiseGe_mergeSort (key : α → Int) (l : List α) :
    PairwiseGeBy key (l.mergeSort (fun a b => decide (key b ≤ key a))) := by
  have h : (l.mergeSort (fun a b => decide (key b ≤ key a))).Pairwise
      (fun a b => decide (key b ≤ key a) = true) :=
    List.sorted_mergeSort
      (fun a b c h1 h2 => by
        simp only [decide_eq_true_eq] at h1 h2 ⊢
        omega)
      (fun a b => by
        simp only [Bool.or_eq_true, decide_eq_true_eq]
        omega)
      l
  exact h.imp (fun hab => by simpa using hab)

theorem mergeSort_congr {r s : α → α → Bool} {l : List α}
    (h : ∀ a ∈ l, ∀ b ∈ l, r a b = s a b) : l.mergeSort r = l.mergeSort s := by
  have hm := @List.map_mergeSort α α r s id l
    (fun a ha b hb => by simpa using h a ha b hb)
  simpa using hm

theorem builtUp_sorted_asc {ps : List PropertyListing}
    (h : ∀ p ∈ ps, (builtUpVal p).isSome = true) :
    PairwiseLeBy builtUpKey (sortProperties ps .builtUpAsc) := by
  have hcongr : ps.mergeSort builtUpLeAsc
      = ps.mergeSort (fun a b => decide (builtUpKey a ≤ builtUpKey b)) := by
    apply mergeSort_congr
    intro a ha b hb
    obtain ⟨x, hx⟩ := Option.isSome_iff_exists.1 (h a ha)
    obtain ⟨y, hy⟩ := Option.isSome_iff_exists.1 (h b hb)
    simp [builtUpLeAsc, builtUpKey, hx, hy]
  show PairwiseLeBy builtUpKey (ps.mergeSort builtUpLeAsc)
  rw [hcongr]
  exact pairwiseLe_mergeSort builtUpKey ps

theorem builtUp_sorted_desc {ps : List PropertyListing}
    (h : ∀ p ∈ ps, (builtUpVal p).isSome = true) :
    PairwiseGeBy builtUpKey (sortProperties ps .builtUpDesc) := by
  have hcongr : ps.mergeSort builtUpLeDesc
      = ps.mergeSort (fun a b => decide (builtUpKey b ≤ builtUpKey a)) := by
    apply mergeSort_congr
    intro a ha b hb
    obtain ⟨x, hx⟩ := Option.isSome_iff_exists.1 (h a ha)
    obtain ⟨y, hy⟩ := Option.isSome_iff_exists.1 (h b hb)
    simp [builtUpLeDesc, builtUpKey, hx, hy]
  show PairwiseGeBy builtUpKey (ps.mergeSort builtUpLeDesc)
  rw [hcongr]
  exact pairwiseGe_mergeSort builtUpKey ps

/-- C6: each sort returns a permutation of its input ordered by the
option's key — non-decreasing for the `-asc` options and non-increasing
for `-desc` — for rent price, sale price, bedroom count, comma-stripped
built-up (on arrays whose built-up strings parse as integers, which the
claim's key presupposes), budget, and the `getTime` timestamps of
deadline / dateCreated; the input list itself is untouched. -/
theorem claim6_sort_comparator_correct :
    (∀ (ps : List PropertyListing) (opt : PropertySortOption),
      (sortProperties ps opt).Perm ps) ∧
    (∀ ps : List PropertyListing,
      PairwiseLeBy (fun p => p.rentPrice) (sortProperties ps .rentPriceAsc)) ∧
    (∀ ps : List PropertyListing,
      PairwiseGeBy (fun p => p.rentPrice) (sortProperties ps .rentPriceDesc)) ∧
    (∀ ps : List PropertyListing,
      PairwiseLeBy (fun p => p.salePrice) (sortProperties ps .salePriceAsc)) ∧
    (∀ ps : List PropertyListing,
      PairwiseGeBy (fun p => p.salePrice) (sortProperties ps .salePriceDesc)) ∧
    (∀ ps : List PropertyListing,
      PairwiseLeBy (fun p => p.bedroom) (sortProperties ps .bedroomAsc)) ∧
    (∀ ps : List PropertyListing,
      PairwiseGeBy (fun p => p.bedroom) (sortProperties ps .bedroomDesc)) ∧
    (∀ ps : List PropertyListing, (∀ p ∈ ps, (builtUpVal p).isSome = true) →
      PairwiseLeBy builtUpKey (sortProperties ps .builtUpAsc)) ∧
    (∀ ps : List PropertyListing, (∀ p ∈ ps, (builtUpVal p).isSome = true) →
      PairwiseGeBy builtUpKey (sortProperties ps .builtUpDesc)) ∧
    (∀ (getTime : String → Int) (ls : List Listing) (opt : ListingSortOption),
      (sortListings getTime ls opt).Perm ls) ∧
    (∀ (getTime : String → Int) (ls : List Listing),
      PairwiseLeBy (fun l => getTime l.deadline) (sortListings getTime ls .deadlineAsc)) ∧
    (∀ (getTime : String → Int) (ls : List Listing),
      PairwiseGeBy (fun l => getTime l.deadline) (sortListings getTime ls .deadlineDesc)) ∧
    (∀ (getTime : String → Int) (ls : List Listing),
      PairwiseLeBy (fun l => l.budget) (sortListings getTime ls .budgetAsc)) ∧
    (∀ (getTime : String → Int) (ls : List Listing),
      PairwiseGeBy (fun l => l.budget) (sortListings getTime ls .budgetDesc)) ∧
    (∀ (getTime : String → Int) (ls : List Listing),
      PairwiseLeBy (fun l => getTime l.dateCreated)
        (sortListings getTime ls .dateCreatedAsc)) ∧
    (∀ (getTime : String → Int) (ls : List Listing),
      PairwiseGeBy (fun l => getTime l.dateCreated)
        (sortListings getTime ls .dateCreatedDesc)) := by
  refine ⟨?_, ?_, ?_, ?_, ?_, ?_, ?_, ?_, ?_, ?_, ?_, ?_, ?_, ?_, ?_, ?_⟩
  · intro ps opt
    cases opt <;> exact List.mergeSort_perm _ _
  · intro ps
    exact pairwiseLe_mergeSort (fun p => p.rentPrice) ps
  · intro ps
    exact pairwiseGe_mergeSort (fun p => p.rentPrice) ps
  · intro ps
    exact pairwiseLe_mergeSort (fun p => p.salePrice) ps
  · intro ps
    exact pairwiseGe_mergeSort (fun p => p.salePrice) ps
  · intro ps
    exact pairwiseLe_mergeSort (fun p => p.bedroom) ps
  · intro ps
    exact pairwiseGe_mergeSort (fun p => p.bedroom) ps
  · intro ps h
    exact builtUp_sorted_asc h
  · intro ps h
    exact builtUp_sorted_desc h
  · intro getTime ls opt
    cases opt <;> exact List.mergeSort_perm _ _
  · intro getTime ls
    exact pairwiseLe_mergeSort (fun l => getTime l.deadline) ls
  · intro getTime ls
    exact pairwiseGe_mergeSort (fun l => getTime l.deadline) ls
  · intro getTime ls
    exact pairwiseLe_mergeSort (fun l => l.budget) ls
  · intro getTime ls
    exact pairwiseGe_mergeSort (fun l => l.budget) ls
  · intro getTime ls
    exact pairwiseLe_mergeSort (fun l => getTime l.dateCreated) ls
  · intro getTime ls
    exact pairwiseGe_mergeSort (fun l => getTime l.dateCreated) ls

theorem claim6_witness :
    PairwiseLeBy builtUpKey (sortProperties initialPropertyData .builtUpAsc) :=
  claim6_sort_comparator_correct.2.2.2.2.2.2.2.1 initialPropertyData (by decide)

/-! ### Listing priority and listing filters (`stores/listingStore.ts`) -/

/-- `"high" | "medium" | "low"`. -/
inductive Priority where
  | high
  | medium
  | low
deriving DecidableEq

/-- `1000 * 3600 * 24` milliseconds. -/
def msPerDay : Int := 1000 * 3600 * 24

/-- `Math.ceil(x / n)` for a positive divisor, via floor division. -/
def jsCeilDiv (x n : Int) : Int := -((-x).fdiv n)

/-- `calculateListingPriority`, with the clock reading (`new Date()`)
and date parsing (`new Date(s).getTime()`) abstracted as `now` and
`getTime`. -/
def calculateListingPriority (getTime : String → Int) (now : Int)
    (deadline : String) : Priority :=
  if jsCeilDiv (getTime deadline - now) msPerDay ≤ 7 then .high
  else if jsCeilDiv (getTime deadline - now) msPerDay ≤ 14 then .medium
  else .low

/-- The `ListingFilters` record. -/
structure ListingFilters where
  priority : List Priority
  topics : List String
  subjects : List String
  budgetRange : NumRange
deriving DecidableEq

/-- `matchesBudgetRange`. -/
def matchesBudgetRange (listing : Listing) (budgetRange : NumRange) : Bool :=
  jsMatchesRange listing.budget budgetRange

/-- `applyFiltersToListings`: priority is recomputed from the deadline and
the current time on every evaluation, not read from the record. -/
def applyFiltersToListings (getTime : String → Int) (now : Int)
    (listings : List Listing) (filters : ListingFilters) : List Listing :=
  listings.filter (fun listing =>
    (filters.priority.isEmpty ||
      filters.priority.contains (calculateListingPriority getTime now listing.deadline)) &&
    (filters.topics.isEmpty || filters.topics.contains listing.topic) &&
    (filters.subjects.isEmpty || filters.subjects.contains listing.subject) &&
    matchesBudgetRange listing filters.budgetRange)

/-- A filter selecting only high-priority listings. -/
def highPriorityFilter : ListingFilters := ⟨[.high], [], [], ⟨none, none⟩⟩

/-- C10: the priority is derived from the deadline relative to the current
date: `high` iff the ceiling of the day difference is at most 7, `medium`
iff it lies in 8..14, `low` otherwise; consequently the same unchanged
listing can match a priority filter at one current time and not at
another. -/
theorem claim10_priority_derived :
    (∀ (getTime : String → Int) (now : Int) (deadline : String),
      (calculateListingPriority getTime now deadline = .high ↔
        jsCeilDiv (getTime deadline - now) msPerDay ≤ 7) ∧
      (calculateListingPriority getTime now deadline = .medium ↔
        (8 ≤ jsCeilDiv (getTime deadline - now) msPerDay ∧
          jsCeilDiv (getTime deadline - now) msPerDay ≤ 14)) ∧
      (calculateListingPriority getTime now deadline = .low ↔
        14 < jsCeilDiv (getTime deadline - now) msPerDay)) ∧
    (∃ (getTime : String → Int) (fil : ListingFilters) (l : Listing) (t1 t2 : Int),
      l ∈ applyFiltersToListings getTime t1 [l] fil ∧
      l ∉ applyFiltersToListings getTime t2 [l] fil) := by
  constructor
  · intro getTime now deadline
    by_cases h7 : jsCeilDiv (getTime deadline - now) msPerDay ≤ 7 <;>
      by_cases h14 : jsCeilDiv (getTime deadline - now) msPerDay ≤ 14 <;>
        simp [calculateListingPriority, h7, h14] <;> omega
  · exact ⟨fun _ => 0, highPriorityFilter, fixtureListing1, 0, -(15 * msPerDay),
      by decide, by decide⟩

theorem claim10_witness :
    calculateListingPriority (fun _ => 0) 0 "2025-02-01" = .high :=
  (claim10_priority_derived.1 (fun _ => 0) 0 "2025-02-01").1.mpr (by decide)

/-! ### The mock auth service (`src/services/authService.ts`)

`login` is parametric in the `userData.json` fixture (absent from the
sources): it looks for the first record matching both email and password
and returns it with the `password` field destructured away. -/

/-- The `User` shape returned to the store (no password field). -/
structure User where
  id : String
  firstName : String
  lastName : String
  email : String
  phone : Option String
deriving DecidableEq

/-- A record of `userData.json`: a `User` plus the stored password. -/
structure UserRecord where
  id : String
  firstName : String
  lastName : String
  email : String
  phone : Option String
  password : String
deriving DecidableEq

/-- `const { password: _password, ...userWithoutPassword } = user`. -/
def userWithoutPassword (u : UserRecord) : User :=
  ⟨u.id, u.firstName, u.lastName, u.email, u.phone⟩

/-- `authService.login`. -/
def login (userData : List UserRecord) (email password : String) : Except String User :=
  match userData.find? (fun user => user.email == email && user.password == password) with
  | none => .error "Invalid email or password"
  | some user => .ok (userWithoutPassword user)

/-- C9: `login` throws `"Invalid email or password"` exactly when no user
record matches both email and password; a successful login returns a
matching record with the password removed and every other field intact —
the returned `User` value carries no password field by construction. -/
theorem claim9_login_strips_password :
    ∀ (userData : List UserRecord) (email password : String),
      (login userData email password = .error "Invalid email or password" ↔
        ∀ u ∈ userData, ¬(u.email = email ∧ u.password = password)) ∧
      (∀ r, login userData email password = .ok r →
        ∃ u ∈ userData, u.email = email ∧ u.password = password ∧
          r = userWithoutPassword u ∧ r.id = u.id ∧ r.firstName = u.firstName ∧
          r.lastName = u.lastName ∧ r.email = u.email ∧ r.phone = u.phone) ∧
      (∀ e, login userData email password = .error e →
        e = "Invalid email or password") := by
  intro userData email password
  unfold login
  cases hfind : userData.find?
      (fun user => user.email == email && user.password == password) with
  | none =>
    rw [List.find?_eq_none] at hfind
    refine ⟨⟨fun _ u hu => ?_, fun _ => rfl⟩, ?_, ?_⟩
    · have := hfind u hu
      simpa using this
    · intro r hr
      simp at hr
    · intro e he
      simp only [Except.error.injEq] at he
      exact he.symm
  | some u =>
    have hmem := List.mem_of_find?_eq_some hfind
    have hpred := List.find?_some hfind
    simp only [Bool.and_eq_true, beq_iff_eq] at hpred
    refine ⟨⟨fun hc => ?_, fun hall => absurd ⟨hpred.1, hpred.2⟩ (hall u hmem)⟩, ?_, ?_⟩
    · simp at hc
    · intro r hr
      simp only [Except.ok.injEq] at hr
      exact ⟨u, hmem, hpred.1, hpred.2, hr.symm, by rw [← hr]; rfl, by rw [← hr]; rfl,
        by rw [← hr]; rfl, by rw [← hr]; rfl, by rw [← hr]; rfl⟩
    · intro e he
      simp at he

/-- A one-record user fixture for the witness. -/
def sampleUsers : List UserRecord := [⟨"1", "Ada", "L", "ada@x.com", none, "pw1"⟩]

theorem claim9_witness :
    login sampleUsers "ada@x.com" "wrong" = .error "Invalid email or password" :=
  ((claim9_login_strips_password sampleUsers "ada@x.com" "wrong").1).mpr (by decide)

/-! ### Async call state (`src/utils/asyncState.ts`)

That module is imported by every store but is not among the provided
sources, so its four helpers are modelled from the spec. -/

/-- Modelled from the spec: the status of an async operation surfaced to
the UI (`src/utils/asyncState.ts` is absent from the sources). -/
inductive AsyncStatus where
  | idle
  | loading
  | success
  | error
deriving DecidableEq

/-- Modelled from the spec: an `AsyncState<T>` carries a status, the data
when available, and the UI-visible error text of a thrown exception. -/
structure AsyncState (α : Type) where
  status : AsyncStatus
  data : Option α
  error : Option String
deriving DecidableEq

/-- Modelled from the spec: the initial idle state. -/
def initialAsyncState : AsyncState α := ⟨.idle, none, none⟩

/-- Modelled from the spec: `loadingState(prev)` marks the operation
in flight, keeping previously loaded data. -/
def loadingState (prev : AsyncState α) : AsyncState α := ⟨.loading, prev.data, none⟩

/-- Modelled from the spec: `successState(data)` records a completed call. -/
def successState (d : α) : AsyncState α := ⟨.success, some d, none⟩

/-- Modelled from the spec: `errorState(msg, prev)` records the thrown
message string as UI-visible error text. -/
def errorState (msg : String) (prev : AsyncState α) : AsyncState α :=
  ⟨.error, prev.data, some msg⟩

/-! ### The property store (`src/stores/propertyStore.ts`)

Each zustand action awaits one service call; the call's outcome is passed
in as an `Except` so the action becomes a state transformer returning the
new store state and the action's return value (`null` becomes `none`). -/

/-- `calculateActiveFilterCount` (excluding areas and titles). -/
def calculateActiveFilterCount (filters : PropertyFilters) : Nat :=
  (if filters.types.isEmpty then 0 else 1) +
  (if filters.subtypes.isEmpty then 0 else 1) +
  (if filters.furnishing.isEmpty then 0 else 1) +
  (if filters.bedroomRange.min.isSome || filters.bedroomRange.max.isSome then 1 else 0) +
  (if filters.rentPriceRange.min.isSome || filters.rentPriceRange.max.isSome then 1 else 0) +
  (if filters.salePriceRange.min.isSome || filters.salePriceRange.max.isSome then 1 else 0)

/-- `calculateTotalActiveFilterCount`. -/
def calculateTotalActiveFilterCount (filters : PropertyFilters)
    (areas titles : List String) : Nat :=
  calculateActiveFilterCount filters +
  (if areas.isEmpty then 0 else 1) + (if titles.isEmpty then 0 else 1)

/-- The slice of `PropertyState` the actions read and write. -/
structure PropertyStoreState where
  properties : List PropertyListing
  filteredProperties : List PropertyListing
  currentProperty : Option PropertyListing
  sortBy : PropertySortOption
  filters : PropertyFilters
  areas : List String
  titles : List String
  activeFilterCount : Nat
  activeFilterCountExcludingAreas : Nat
  propertyListState : AsyncState (List PropertyListing)
  propertyDetailState : AsyncState PropertyListing
  propertyMutationState : AsyncState (Option PropertyListing)
deriving DecidableEq

/-- `fetchProperties`. -/
def fetchProperties (svc : Except String (List PropertyListing))
    (s : PropertyStoreState) : PropertyStoreState × Option (List PropertyListing) :=
  let s1 := { s with propertyListState := loadingState s.propertyListState }
  match svc with
  | .ok properties =>
    let sortedProperties := sortProperties properties s1.sortBy
    let filteredProperties :=
      applyFiltersToProperties sortedProperties s1.filters s1.areas s1.titles
    ({ s1 with
        propertyListState := successState properties,
        properties := sortedProperties,
        filteredProperties := filteredProperties,
        activeFilterCount := calculateTotalActiveFilterCount s1.filters s1.areas s1.titles,
        activeFilterCountExcludingAreas := calculateActiveFilterCount s1.filters },
      some properties)
  | .error msg =>
    ({ s1 with propertyListState := errorState msg s1.propertyListState }, none)

/-- `fetchPropertyById`: the source clears `currentProperty` before the
service call "to prevent showing stale data". -/
def fetchPropertyById (svc : Except String PropertyListing)
    (s : PropertyStoreState) : PropertyStoreState × Option PropertyListing :=
  let s0 := { s with currentProperty := none }
  let s1 := { s0 with propertyDetailState := loadingState s0.propertyDetailState }
  match svc with
  | .ok property =>
    ({ s1 with
        propertyDetailState := successState property,
        currentProperty := some property }, some property)
  | .error msg =>
    ({ s1 with propertyDetailState := errorState msg s1.propertyDetailState }, none)

/-- `createProperty`. -/
def createProperty (svc : Except String PropertyListing)
    (s : PropertyStoreState) : PropertyStoreState × Option PropertyListing :=
  let s1 := { s with propertyMutationState := loadingState s.propertyMutationState }
  match svc with
  | .ok newProperty =>
    let properties := s1.properties ++ [newProperty]
    let sortedProperties := sortProperties properties s1.sortBy
    let filteredProperties :=
      applyFiltersToProperties sortedProperties s1.filters s1.areas s1.titles
    ({ s1 with
        propertyMutationState := successState (some newProperty),
        properties := sortedProperties,
        filteredProperties := filteredProperties }, some newProperty)
  | .error msg =>
    ({ s1 with propertyMutationState := errorState msg s1.propertyMutationState }, none)

/-- `updateProperty`. -/
def updateProperty (propertyId : String) (svc : Except String PropertyListing)
    (s : PropertyStoreState) : PropertyStoreState × Option PropertyListing :=
  let s1 := { s with propertyMutationState := loadingState s.propertyMutationState }
  match svc with
  | .ok updatedProperty =>
    let properties := s1.properties.map
      (fun property => if property.id == propertyId then updatedProperty else property)
    let sortedProperties := sortProperties properties s1.sortBy
    let filteredProperties :=
      applyFiltersToProperties sortedProperties s1.filters s1.areas s1.titles
    let currentProperty :=
      if s1.currentProperty.any (fun c => c.id == propertyId) then some updatedProperty
      else s1.currentProperty
    ({ s1 with
        propertyMutationState := successState (some updatedProperty),
        properties := sortedProperties,
        filteredProperties := filteredProperties,
        currentProperty := currentProperty }, some updatedProperty)
  | .error msg =>
    ({ s1 with propertyMutationState := errorState msg s1.propertyMutationState }, none)

/-- `deleteProperty`. -/
def deleteProperty (propertyId : String) (svc : Except String Unit)
    (s : PropertyStoreState) : PropertyStoreState × Option Unit :=
  let s1 := { s with propertyMutationState := loadingState s.propertyMutationState }
  match svc with
  | .ok _ =>
    let properties := s1.properties.filter (fun property => !(property.id == propertyId))
    let sortedProperties := sortProperties properties s1.sortBy
    let filteredProperties :=
      applyFiltersToProperties sortedProperties s1.filters s1.areas s1.titles
    let currentProperty :=
      if s1.currentProperty.any (fun c => c.id == propertyId) then none
      else s1.currentProperty
    ({ s1 with
        propertyMutationState := successState none,
        properties := sortedProperties,
        filteredProperties := filteredProperties,
        currentProperty := currentProperty }, some ())
  | .error msg =>
    ({ s1 with propertyMutationState := errorState msg s1.propertyMutationState }, none)

/-! ### The listing store (`stores/listingStore.ts`) -/

/-- The slice of `ListingState` the actions read and write. -/
structure ListingStoreState where
  listings : List Listing
  filteredListings : List Listing
  currentListing : Option Listing
  sortBy : ListingSortOption
  filters : ListingFilters
  activeFilterCount : Nat
  listingListState : AsyncState (List Listing)
  listingDetailState : AsyncState Listing
  listingMutationState : AsyncState (Option Listing)
deriving DecidableEq

/-- `fetchListings`. -/
def fetchListings (getTime : String → Int) (now : Int)
    (svc : Except String (List Listing)) (s : ListingStoreState) :
    ListingStoreState × Option (List Listing) :=
  let s1 := { s with listingListState := loadingState s.listingListState }
  match svc with
  | .ok listings =>
    let sortedListings := sortListings getTime listings s1.sortBy
    let filteredListings := applyFiltersToListings getTime now sortedListings s1.filters
    ({ s1 with
        listingListState := successState listings,
        listings := sortedListings,
        filteredListings := filteredListings }, some listings)
  | .error msg =>
    ({ s1 with listingListState := errorState msg s1.listingListState }, none)

/-- `fetchListingById` (unlike `fetchPropertyById`, it does not clear
`currentListing` first). -/
def fetchListingById (svc : Except String Listing) (s : ListingStoreState) :
    ListingStoreState × Option Listing :=
  let s1 := { s with listingDetailState := loadingState s.listingDetailState }
  match svc with
  | .ok listing =>
    ({ s1 with
        listingDetailState := successState listing,
        currentListing := some listing }, some listing)
  | .error msg =>
    ({ s1 with listingDetailState := errorState msg s1.listingDetailState }, none)

/-- `createListing`. -/
def createListing (getTime : String → Int) (now : Int)
    (svc : Except String Listing) (s : ListingStoreState) :
    ListingStoreState × Option Listing :=
  let s1 := { s with listingMutationState := loadingState s.listingMutationState }
  match svc with
  | .ok newListing =>
    let listings := s1.listings ++ [newListing]
    let sortedListings := sortListings getTime listings s1.sortBy
    let filteredListings := applyFiltersToListings getTime now sortedListings s1.filters
    ({ s1 with
        listingMutationState := successState (some newListing),
        listings := sortedListings,
        filteredListings := filteredListings }, some newListing)
  | .error msg =>
    ({ s1 with listingMutationState := errorState msg s1.listingMutationState }, none)

/-- `updateListing`. -/
def updateListing (getTime : String → Int) (now : Int) (listingId : String)
    (svc : Except String Listing) (s : ListingStoreState) :
    ListingStoreState × Option Listing :=
  let s1 := { s with listingMutationState := loadingState s.listingMutationState }
  match svc with
  | .ok updatedListing =>
    let listings := s1.listings.map
      (fun listing => if listing.id == listingId then updatedListing else listing)
    let sortedListings := sortListings getTime listings s1.sortBy
    let filteredListings := applyFiltersToListings getTime now sortedListings s1.filters
    let currentListing :=
      if s1.currentListing.any (fun c => c.id == listingId) then some updatedListing
      else s1.currentListing
    ({ s1 with
        listingMutationState := successState (some updatedListing),
        listings := sortedListings,
        filteredListings := filteredListings,
        currentListing := currentListing }, some updatedListing)
  | .error msg =>
    ({ s1 with listingMutationState := errorState msg s1.listingMutationState }, none)

/-- `deleteListing` (the remaining listings are filtered but not
re-sorted, matching the source). -/
def deleteListing (getTime : String → Int) (now : Int) (listingId : String)
    (svc : Except String Unit) (s : ListingStoreState) :
    ListingStoreState × Option Unit :=
  let s1 := { s with listingMutationState := loadingState s.listingMutationState }
  match svc with
  | .ok _ =>
    let listings := s1.listings.filter (fun listing => !(listing.id == listingId))
    let filteredListings := applyFiltersToListings getTime now listings s1.filters
    let currentListing :=
      if s1.currentListing.any (fun c => c.id == listingId) then none
      else s1.currentListing
    ({ s1 with
        listingMutationState := successState none,
        listings := listings,
        filteredListings := filteredListings,
        currentListing := currentListing }, some ())
  | .error msg =>
    ({ s1 with listingMutationState := errorState msg s1.listingMutationState }, none)

/-- `defaultFilters` of the property store. -/
def defaultPropertyFilters : PropertyFilters :=
  ⟨[], [], [], ⟨none, none⟩, ⟨none, none⟩, ⟨none, none⟩⟩

/-- A concrete property-store state with a current property loaded. -/
def samplePropertyState : PropertyStoreState :=
  ⟨initialPropertyData, initialPropertyData, some fixtureProperty1, .rentPriceAsc,
    defaultPropertyFilters, [], [], 0, 0, initialAsyncState, initialAsyncState,
    initialAsyncState⟩

/-- C7 fails as stated for `fetchPropertyById`: the action clears
`currentProperty` before the service call, so when the service throws the
store's `currentProperty` is `null`, not the previous value. -/
theorem claim7_counterexample :
    (fetchPropertyById (.error "Property with ID 9 not found")
        samplePropertyState).1.currentProperty ≠
      samplePropertyState.currentProperty := by
  decide

/-- C7 (amended): every store action catches a thrown service error,
returns `null` and sets its corresponding async state to an error state
carrying the thrown message, leaving the data collections unchanged —
except that `fetchPropertyById` has already cleared `currentProperty`
(set it to `null`) before the call, so on error `currentProperty` is
`null` rather than its previous value; on success each action returns the
service's result and sets its async state to the success state. -/
theorem claim7_store_actions_error_handling :
    (∀ (msg : String) (s : PropertyStoreState),
      (fetchProperties (.error msg) s).2 = none ∧
      (fetchProperties (.error msg) s).1.propertyListState.status = .error ∧
      (fetchProperties (.error msg) s).1.propertyListState.error = some msg ∧
      (fetchProperties (.error msg) s).1.properties = s.properties ∧
      (fetchProperties (.error msg) s).1.filteredProperties = s.filteredProperties ∧
      (fetchProperties (.error msg) s).1.currentProperty = s.currentProperty) ∧
    (∀ (v : List PropertyListing) (s : PropertyStoreState),
      (fetchProperties (.ok v) s).2 = some v ∧
      (fetchProperties (.ok v) s).1.propertyListState = successState v) ∧
    (∀ (msg : String) (s : PropertyStoreState),
      (fetchPropertyById (.error msg) s).2 = none ∧
      (fetchPropertyById (.error msg) s).1.propertyDetailState.status = .error ∧
      (fetchPropertyById (.error msg) s).1.propertyDetailState.error = some msg ∧
      (fetchPropertyById (.error msg) s).1.properties = s.properties ∧
      (fetchPropertyById (.error msg) s).1.filteredProperties = s.filteredProperties ∧
      (fetchPropertyById (.error msg) s).1.currentProperty = none) ∧
    (∀ (v : PropertyListing) (s : PropertyStoreState),
      (fetchPropertyById (.ok v) s).2 = some v ∧
      (fetchPropertyById (.ok v) s).1.propertyDetailState = successState v) ∧
    (∀ (msg : String) (s : PropertyStoreState),
      (createProperty (.error msg) s).2 = none ∧
      (createProperty (.error msg) s).1.propertyMutationState.status = .error ∧
      (createProperty (.error msg) s).1.propertyMutationState.error = some msg ∧
      (createProperty (.error msg) s).1.properties = s.properties ∧
      (createProperty (.error msg) s).1.filteredProperties = s.filteredProperties ∧
      (createProperty (.error msg) s).1.currentProperty = s.currentProperty) ∧
    (∀ (v : PropertyListing) (s : PropertyStoreState),
      (createProperty (.ok v) s).2 = some v ∧
      (createProperty (.ok v) s).1.propertyMutationState = successState (some v)) ∧
    (∀ (id : String) (msg : String) (s : PropertyStoreState),
      (updateProperty id (.error msg) s).2 = none ∧
      (updateProperty id (.error msg) s).1.propertyMutationState.status = .error ∧
      (updateProperty id (.error msg) s).1.propertyMutationState.error = some msg ∧
      (updateProperty id (.error msg) s).1.properties = s.properties ∧
      (updateProperty id (.error msg) s).1.filteredProperties = s.filteredProperties ∧
      (updateProperty id (.error msg) s).1.currentProperty = s.currentProperty) ∧
    (∀ (id : String) (v : PropertyListing) (s : PropertyStoreState),
      (updateProperty id (.ok v) s).2 = some v ∧
      (updateProperty id (.ok v) s).1.propertyMutationState = successState (some v)) ∧
    (∀ (id : String) (msg : String) (s : PropertyStoreState),
      (deleteProperty id (.error msg) s).2 = none ∧
      (deleteProperty id (.error msg) s).1.propertyMutationState.status = .error ∧
      (deleteProperty id (.error msg) s).1.propertyMutationState.error = some msg ∧
      (deleteProperty id (.error msg) s).1.properties = s.properties ∧
      (deleteProperty id (.error msg) s).1.filteredProperties = s.filteredProperties ∧
      (deleteProperty id (.error msg) s).1.currentProperty = s.currentProperty) ∧
    (∀ (id : String) (s : PropertyStoreState),
      (deleteProperty id (.ok ()) s).2 = some () ∧
      (deleteProperty id (.ok ()) s).1.propertyMutationState = successState none) ∧
    (∀ (getTime : String → Int) (now : Int) (msg : String) (s : ListingStoreState),
      (fetchListings getTime now (.error msg) s).2 = none ∧
      (fetchListings getTime now (.error msg) s).1.listingListState.status = .error ∧
      (fetchListings getTime now (.error msg) s).1.listingListState.error = some msg ∧
      (fetchListings getTime now (.error msg) s).1.listings = s.listings ∧
      (fetchListings getTime now (.error msg) s).1.filteredListings = s.filteredListings ∧
      (fetchListings getTime now (.error msg) s).1.currentListing = s.currentListing) ∧
    (∀ (getTime : String → Int) (now : Int) (v : List Listing) (s : ListingStoreState),
      (fetchListings getTime now (.ok v) s).2 = some v ∧
      (fetchListings getTime now (.ok v) s).1.listingListState = successState v) ∧
    (∀ (msg : String) (s : ListingStoreState),
      (fetchListingById (.error msg) s).2 = none ∧
      (fetchListingById (.error msg) s).1.listingDetailState.status = .error ∧
      (fetchListingById (.error msg) s).1.listingDetailState.error = some msg ∧
      (fetchListingById (.error msg) s).1.listings = s.listings ∧
      (fetchListingById (.error msg) s).1.filteredListings = s.filteredListings ∧
      (fetchListingById (.error msg) s).1.currentListing = s.currentListing) ∧
    (∀ (v : Listing) (s : ListingStoreState),
      (fetchListingById (.ok v) s).2 = some v ∧
      (fetchListingById (.ok v) s).1.listingDetailState = successState v) ∧
    (∀ (getTime : String → Int) (now : Int) (msg : String) (s : ListingStoreState),
      (createListing getTime now (.error msg) s).2 = none ∧
      (createListing getTime now (.error msg) s).1.listingMutationState.status = .error ∧
      (createListing getTime now (.error msg) s).1.listingMutationState.error = some msg ∧
      (createListing getTime now (.error msg) s).1.listings = s.listings ∧
      (createListing getTime now (.error msg) s).1.filteredListings = s.filteredListings ∧
      (createListing getTime now (.error msg) s).1.currentListing = s.currentListing) ∧
    (∀ (getTime : String → Int) (now : Int) (v : Listing) (s : ListingStoreState),
      (createListing getTime now (.ok v) s).2 = some v ∧
      (createListing getTime now (.ok v) s).1.listingMutationState =
        successState (some v)) ∧
    (∀ (getTime : String → Int) (now : Int) (id : String) (msg : String)
        (s : ListingStoreState),
      (updateListing getTime now id (.error msg) s).2 = none ∧
      (updateListing getTime now id (.error msg) s).1.listingMutationState.status
        = .error ∧
      (updateListing getTime now id (.error msg) s).1.listingMutationState.error
        = some msg ∧
      (updateListing getTime now id (.error msg) s).1.listings = s.listings ∧
      (updateListing getTime now id (.error msg) s).1.filteredListings
        = s.filteredListings ∧
      (updateListing getTime now id (.error msg) s).1.currentListing = s.currentListing) ∧
    (∀ (getTime : String → Int) (now : Int) (id : String) (v : Listing)
        (s : ListingStoreState),
      (updateListing getTime now id (.ok v) s).2 = some v ∧
      (updateListing getTime now id (.ok v) s).1.listingMutationState =
        successState (some v)) ∧
    (∀ (getTime : String → Int) (now : Int) (id : String) (msg : String)
        (s : ListingStoreState),
      (deleteListing getTime now id (.error msg) s).2 = none ∧
      (deleteListing getTime now id (.error msg) s).1.listingMutationState.status
        = .error ∧
      (deleteListing getTime now id (.error msg) s).1.listingMutationState.error
        = some msg ∧
      (deleteListing getTime now id (.error msg) s).1.listings = s.listings ∧
      (deleteListing getTime now id (.error msg) s).1.filteredListings
        = s.filteredListings ∧
      (deleteListing getTime now id (.error msg) s).1.currentListing
        = s.currentListing) ∧
    (∀ (getTime : String → Int) (now : Int) (id : String) (s : ListingStoreState),
      (deleteListing getTime now id (.ok ()) s).2 = some () ∧
      (deleteListing getTime now id (.ok ()) s).1.listingMutationState =
        successState none) :=
  ⟨fun _ _ => ⟨rfl, rfl, rfl, rfl, rfl, rfl⟩,
   fun _ _ => ⟨rfl, rfl⟩,
   fun _ _ => ⟨rfl, rfl, rfl, rfl, rfl, rfl⟩,
   fun _ _ => ⟨rfl, rfl⟩,
   fun _ _ => ⟨rfl, rfl, rfl, rfl, rfl, rfl⟩,
   fun _ _ => ⟨rfl, rfl⟩,
   fun _ _ _ => ⟨rfl, rfl, rfl, rfl, rfl, rfl⟩,
   fun _ _ _ => ⟨rfl, rfl⟩,
   fun _ _ _ => ⟨rfl, rfl, rfl, rfl, rfl, rfl⟩,
   fun _ _ => ⟨rfl, rfl⟩,
   fun _ _ _ _ => ⟨rfl, rfl, rfl, rfl, rfl, rfl⟩,
   fun _ _ _ _ => ⟨rfl, rfl⟩,
   fun _ _ => ⟨rfl, rfl, rfl, rfl, rfl, rfl⟩,
   fun _ _ => ⟨rfl, rfl⟩,
   fun _ _ _ _ => ⟨rfl, rfl, rfl, rfl, rfl, rfl⟩,
   fun _ _ _ _ => ⟨rfl, rfl⟩,
   fun _ _ _ _ _ => ⟨rfl, rfl, rfl, rfl, rfl, rfl⟩,
   fun _ _ _ _ _ => ⟨rfl, rfl⟩,
   fun _ _ _ _ _ => ⟨rfl, rfl, rfl, rfl, rfl, rfl⟩,
   fun _ _ _ _ => ⟨rfl, rfl⟩⟩

end Cobroker
